import Mathlib

/-!
Verification development for the multi-location inventory reconciliation
engine of a Shopify warehouse-sync application.

The JavaScript services are shallowly embedded as executable Lean
functions.  External HTTP effects (GraphQL queries and mutations against
the commerce platform, REST pages from the warehouse API) are modelled by
passing the remote state in explicitly and by recording every mutation
the engine issues in an explicit mutation log.  JavaScript numbers used
for stock quantities are modelled as `Int` (deltas are signed).
-/

namespace SkincareSync

/-- Whitespace-collapsing pass of the location-name normalizer: the
`replace(/\s+/g, " ")` step, carrying a flag telling whether the previous
character was whitespace so that each whitespace run yields one space. -/
def collapseWsAux : Bool → List Char → List Char
  | _, [] => []
  | prevWs, c :: rest =>
    if c.isWhitespace then
      if prevWs then collapseWsAux true rest
      else ' ' :: collapseWsAux true rest
    else c :: collapseWsAux false rest

/-- Collapse every whitespace run to a single space (`replace(/\s+/g, " ")`). -/
def collapseWs (l : List Char) : List Char :=
  collapseWsAux false l

/-- The `trim()` step: drop leading and trailing whitespace characters. -/
def trimChars (l : List Char) : List Char :=
  ((l.dropWhile Char.isWhitespace).reverse.dropWhile Char.isWhitespace).reverse

/-- JavaScript's `String.prototype.trim`, over the character list. -/
def trimString (s : String) : String :=
  String.mk (trimChars s.data)

/-- `normalizeLocationName` from `inventorySync.server.js`:
lowercase, trim, then collapse internal whitespace runs to single spaces.
(Lowercasing uses `Char.toLower`, which maps only ASCII letters; it is
applied identically to both sides of every comparison.) -/
def normalizeLocationName (name : String) : String :=
  String.mk (collapseWs (trimChars (name.data.map Char.toLower)))

/-! ## Warehouse API client (`warehouseApi.server.js`) -/

namespace WarehouseApi

/-- The `product` sub-object of a raw warehouse inventory record. -/
structure RawProduct where
  sku : String
  name : Option String
  deriving Repr, DecidableEq

/-- One raw record of the warehouse `/inventories` endpoint.  `product`
is optional because records missing a product reference are skipped;
`sale_inventory_quantity` is optional because the code defaults it
(`|| 0`). -/
structure RawRecord where
  product : Option RawProduct
  sale_inventory_quantity : Option Int
  deriving Repr, DecidableEq

/-- `LocationQuantity`: one per-location entry of a canonical item. -/
structure LocationQuantity where
  location_name : String
  quantity : Int
  deriving Repr, DecidableEq

/-- `CanonicalInventoryItem`: the merged per-SKU view of warehouse stock. -/
structure CanonicalItem where
  sku : String
  product_name : String
  locations : List LocationQuantity
  deriving Repr, DecidableEq

/-- `WAREHOUSE_LOCATION_MAP[7]`. -/
def warehouse7Name : String := "Narita - JP"

/-- `WAREHOUSE_LOCATION_MAP[9]`. -/
def warehouse9Name : String := "Ba Đình - HN"

/-- One step of `mergeWarehouseData`'s per-record loop: validate the raw
record (skip when the product reference is missing, the SKU is falsy, or
the SKU trims to the empty string), then either append a fresh canonical
item for a first-seen SKU or push one `LocationQuantity` onto the
existing item with that SKU. -/
def addRecord (locName : String) (acc : List CanonicalItem) (r : RawRecord) :
    List CanonicalItem :=
  match r.product with
  | none => acc
  | some p =>
    if p.sku == "" then acc
    else if trimString p.sku == "" then acc
    else
      let entry : LocationQuantity :=
        { location_name := locName, quantity := r.sale_inventory_quantity.getD 0 }
      if acc.any (fun it => it.sku == p.sku) then
        acc.map (fun it =>
          if it.sku == p.sku then { it with locations := it.locations ++ [entry] }
          else it)
      else
        acc ++ [{ sku := p.sku, product_name := p.name.getD "Unknown Product",
                  locations := [entry] }]

/-- `mergeWarehouseData(warehouse7Data, warehouse9Data)`: fold both
warehouses' raw page data into the insertion-ordered SKU-keyed map. -/
def mergeWarehouseData (warehouse7Data warehouse9Data : List RawRecord) :
    List CanonicalItem :=
  (warehouse9Data.foldl (addRecord warehouse9Name)
    (warehouse7Data.foldl (addRecord warehouse7Name) []))

/-- A raw record survives `mergeWarehouseData`'s validation/skip policy. -/
def validRecord (r : RawRecord) : Bool :=
  match r.product with
  | none => false
  | some p => ¬(p.sku == "") && ¬(trimString p.sku == "")

/-- Total number of `LocationQuantity` entries across a canonical list. -/
def totalLocationEntries (items : List CanonicalItem) : Nat :=
  (items.map (fun it => it.locations.length)).sum

end WarehouseApi

/-! ## Multi-location reconciliation engine (`inventorySync.server.js`) -/

namespace InventorySync

open WarehouseApi (LocationQuantity CanonicalItem)

/-- A commerce product variant as returned by the `getVariantBySku`
query: its SKU and its inventory-item id. -/
structure Variant where
  sku : String
  invItemId : String
  deriving Repr, DecidableEq

/-- One commerce inventory level: a tracked (inventory item, location)
pair with its current `available` quantity. -/
structure InvLevel where
  invItemId : String
  locId : String
  locName : String
  available : Int
  deriving Repr, DecidableEq

/-- One entry of the shop's full location list (`getLocations`). -/
structure ShopLocation where
  locId : String
  name : String
  deriving Repr, DecidableEq

/-- The commerce platform's state visible to the engine: the variant
catalog, all inventory levels, and the shop's registered locations. -/
structure World where
  variants : List Variant
  levels : List InvLevel
  shopLocations : List ShopLocation
  deriving Repr, DecidableEq

/-- One inventory mutation call issued against the commerce platform:
`inventoryActivate` or a relative `inventoryAdjustQuantities`. -/
inductive Mutation where
  | activate (invItemId locId : String)
  | adjust (invItemId locId : String) (delta : Int)
  deriving Repr, DecidableEq

/-- `SyncOutcome`: one reconciliation result per (item, location) pair,
with the optional fields only the updated branch fills in. -/
structure Outcome where
  success : Bool
  skipped : Bool
  sku : String
  location : String
  previousQuantity : Option Int := none
  newQuantity : Option Int := none
  delta : Option Int := none
  wasActivated : Option Bool := none
  message : String
  deriving Repr, DecidableEq

/-- Levels of one inventory item, in platform order
(the `getInventoryLevels` query result). -/
def levelsFor (levels : List InvLevel) (invItemId : String) : List InvLevel :=
  levels.filter (fun l => l.invItemId == invItemId)

/-- `inventoryLevels.find(...)`: first level whose location name
normalize-matches the warehouse location name. -/
def findLevel (snapshot : List InvLevel) (name : String) : Option InvLevel :=
  snapshot.find? (fun l =>
    normalizeLocationName l.locName == normalizeLocationName name)

/-- `allLocations.find(...)`: first shop location whose name
normalize-matches the warehouse location name. -/
def findShopLocation (shopLocations : List ShopLocation) (name : String) :
    Option ShopLocation :=
  shopLocations.find? (fun l =>
    normalizeLocationName l.name == normalizeLocationName name)

/-- Apply a relative adjustment mutation to the platform state: add
`delta` to the available quantity at the (inventory item, location) key. -/
def applyAdjust (levels : List InvLevel) (invItemId locId : String)
    (delta : Int) : List InvLevel :=
  levels.map (fun l =>
    if l.invItemId == invItemId && l.locId == locId then
      { l with available := l.available + delta }
    else l)

/-- Apply an `inventoryActivate` mutation: if the (inventory item,
location) pair is already tracked the platform returns the existing
level unchanged, otherwise a new level initialized at quantity 0 is
created (appended) and returned. -/
def applyActivate (levels : List InvLevel) (invItemId : String)
    (target : ShopLocation) : InvLevel × List InvLevel :=
  match levels.find? (fun l =>
      l.invItemId == invItemId && l.locId == target.locId) with
  | some l => (l, levels)
  | none =>
    let newLevel : InvLevel :=
      { invItemId := invItemId, locId := target.locId,
        locName := target.name, available := 0 }
    (newLevel, levels ++ [newLevel])

/-- The unchanged-quantity outcome (`current == target`). -/
def skipOutcome (sku locationName : String) (newQuantity : Int) : Outcome :=
  { success := true, skipped := true, sku := sku, location := locationName,
    message := "SKU " ++ sku ++ " at " ++ locationName ++
      " already has correct quantity (" ++ toString newQuantity ++ ")" }

/-- The unmatched-location outcome: the warehouse location exists
neither among the item's levels nor in the shop's location list. -/
def unmatchedOutcome (sku locationName : String) : Outcome :=
  { success := false, skipped := true, sku := sku, location := locationName,
    message := "Location \"" ++ locationName ++
      "\" không tồn tại trong Shopify. Vui lòng tạo location này trong Settings > Locations." }

/-- The updated-quantity outcome pushed after a successful adjustment. -/
def updatedOutcome (sku locationName : String)
    (currentQuantity newQuantity delta : Int) (wasActivated : Bool) :
    Outcome :=
  { success := true, skipped := false, sku := sku, location := locationName,
    previousQuantity := some currentQuantity, newQuantity := some newQuantity,
    delta := some delta, wasActivated := some wasActivated,
    message :=
      if wasActivated then
        "✨ Activated & updated SKU " ++ sku ++ " at " ++ locationName ++
          " to " ++ toString newQuantity
      else
        "Successfully updated SKU " ++ sku ++ " at " ++ locationName ++
          " from " ++ toString currentQuantity ++ " to " ++ toString newQuantity }

/-- The skip/update phase applied once a level is resolved for the
warehouse location: skip when `current == target`, otherwise issue one
relative adjustment with `delta = target - current` and report the
update.  `snapshot` is the item's level list fetched once before the
location loop; the `wasActivated` flag of the outcome re-checks it. -/
def adjustPhase (invItemId sku : String) (snapshot : List InvLevel)
    (levels : List InvLevel) (wloc : LocationQuantity) (lvl : InvLevel) :
    Outcome × List Mutation × List InvLevel :=
  let currentQuantity := lvl.available
  let newQuantity := wloc.quantity
  if currentQuantity = newQuantity then
    (skipOutcome sku lvl.locName newQuantity, [], levels)
  else
    let delta := newQuantity - currentQuantity
    let wasActivated := currentQuantity = 0 &&
      (findLevel snapshot lvl.locName).isNone
    (updatedOutcome sku lvl.locName currentQuantity newQuantity delta wasActivated,
      [Mutation.adjust invItemId lvl.locId delta],
      applyAdjust levels invItemId lvl.locId delta)

/-- One iteration of `syncProductInventory`'s location loop: match the
warehouse location against the snapshot of existing levels, activate via
the shop location list if unmatched, then skip or adjust. -/
def syncLocationStep (shopLocations : List ShopLocation)
    (invItemId sku : String) (snapshot : List InvLevel)
    (levels : List InvLevel) (wloc : LocationQuantity) :
    Outcome × List Mutation × List InvLevel :=
  match findLevel snapshot wloc.location_name with
  | some lvl => adjustPhase invItemId sku snapshot levels wloc lvl
  | none =>
    match findShopLocation shopLocations wloc.location_name with
    | none => (unmatchedOutcome sku wloc.location_name, [], levels)
    | some target =>
      let a := applyActivate levels invItemId target
      let r := adjustPhase invItemId sku snapshot a.2 wloc a.1
      (r.1, Mutation.activate invItemId target.locId :: r.2.1, r.2.2)

/-- The location loop of `syncProductInventory`, folded over
`item.locations` with the level snapshot fixed and the platform state
threaded through. -/
def syncLocations (shopLocations : List ShopLocation)
    (invItemId sku : String) (snapshot : List InvLevel) :
    List LocationQuantity → List InvLevel →
    List Outcome × List Mutation × List InvLevel
  | [], levels => ([], [], levels)
  | wloc :: rest, levels =>
    let r := syncLocationStep shopLocations invItemId sku snapshot levels wloc
    let r2 := syncLocations shopLocations invItemId sku snapshot rest r.2.2
    (r.1 :: r2.1, r.2.1 ++ r2.2.1, r2.2.2)

/-- The SKU-not-found outcome covering every requested location at once. -/
def notFoundOutcome (sku : String) : Outcome :=
  { success := false, skipped := true, sku := sku, location := "all",
    message := "Product variant with SKU " ++ sku ++ " not found in Shopify" }

/-- The outcome returned when the item has no inventory level and the
shop reports no locations at all. -/
def noLocationsOutcome (sku : String) : Outcome :=
  { success := false, skipped := true, sku := sku, location := "all",
    message := "No locations found in shop for SKU " ++ sku }

/-- `syncProductInventory(admin, item)`: resolve the variant by SKU,
fetch the item's level snapshot and the shop location list once, then
run the per-location loop.  Returns the outcome list, the mutation
calls issued, and the resulting platform state. -/
def syncProductInventory (w : World) (item : CanonicalItem) :
    List Outcome × List Mutation × World :=
  match w.variants.find? (fun v => v.sku == item.sku) with
  | none => ([notFoundOutcome item.sku], [], w)
  | some variant =>
    let invItemId := variant.invItemId
    let snapshot := levelsFor w.levels invItemId
    if snapshot.isEmpty && w.shopLocations.isEmpty then
      ([noLocationsOutcome item.sku], [], w)
    else
      let r := syncLocations w.shopLocations invItemId item.sku snapshot
        item.locations w.levels
      (r.1, r.2.1, { w with levels := r.2.2 })

/-- The item loop of `syncInventoryToShopify`: reconcile each canonical
item in order, concatenating outcomes and mutation calls and threading
the platform state. -/
def runSync (w : World) : List CanonicalItem →
    List Outcome × List Mutation × World
  | [] => ([], [], w)
  | item :: rest =>
    let r := syncProductInventory w item
    let r2 := runSync r.2.2 rest
    (r.1 ++ r2.1, r.2.1 ++ r2.2.1, r2.2.2)

/-- Pairwise-distinct (inventory item, location) keys among inventory
levels: the commerce platform tracks one level per such pair. -/
abbrev KeyUnique (levels : List InvLevel) : Prop :=
  (levels.map (fun l => (l.invItemId, l.locId))).Nodup

/-- Level location names agree with the shop's location list wherever a
location id is shared. -/
abbrev NamesConsistent (levels : List InvLevel)
    (shopLocations : List ShopLocation) : Prop :=
  ∀ l ∈ levels, ∀ s ∈ shopLocations, l.locId = s.locId → l.locName = s.name

/-- Pairwise-distinct shop location ids. -/
abbrev ShopLocationsUnique (shopLocations : List ShopLocation) : Prop :=
  (shopLocations.map (fun s => s.locId)).Nodup

/-- Pairwise-distinct inventory-item ids among the variant catalog. -/
abbrev VariantsUnique (variants : List Variant) : Prop :=
  (variants.map (fun v => v.invItemId)).Nodup

/-- A well-formed commerce state. -/
abbrev WorldWF (w : World) : Prop :=
  KeyUnique w.levels ∧ NamesConsistent w.levels w.shopLocations ∧
    ShopLocationsUnique w.shopLocations ∧ VariantsUnique w.variants

/-- Pairwise-distinct normalized warehouse location names within one
item's locations list. -/
abbrev DistinctNormalizedNames (locs : List LocationQuantity) : Prop :=
  (locs.map (fun wloc => normalizeLocationName wloc.location_name)).Nodup

/-- Pairwise-distinct SKUs across the canonical items of a run. -/
abbrev DistinctSkus (items : List CanonicalItem) : Prop :=
  (items.map (fun it => it.sku)).Nodup

/-- Reconciliation has converged for the item: its SKU resolves, and
every warehouse location is matched by a level holding exactly the
requested quantity. -/
def ItemConverged (w : World) (item : CanonicalItem) : Prop :=
  ∃ v, w.variants.find? (fun x => x.sku == item.sku) = some v ∧
    ∀ wloc ∈ item.locations,
      ∃ lvl, findLevel (levelsFor w.levels v.invItemId) wloc.location_name =
          some lvl ∧ lvl.available = wloc.quantity

/-- The early "No locations found in shop" return is not taken for the
item: its variant sees some level or the shop has some location. -/
def GuardOpen (w : World) (item : CanonicalItem) : Prop :=
  ∀ v, w.variants.find? (fun x => x.sku == item.sku) = some v →
    ((levelsFor w.levels v.invItemId).isEmpty && w.shopLocations.isEmpty) = false

end InventorySync

/-! ## Cron-scheduled sync engine (`shopifyInventorySync.server.js`) -/

namespace ShopifyInventorySync

/-- The inventory-item data nested in a fetched variant: its id and the
location ids of its inventory levels, in platform order. -/
structure CronInvItem where
  id : String
  levelLocIds : List String
  deriving Repr, DecidableEq

/-- A product variant as fetched by `fetchShopifyVariantsWithInventory`. -/
structure CronVariant where
  sku : String
  inventoryItem : Option CronInvItem
  deriving Repr, DecidableEq

/-- A warehouse item as the cron engine reads it: `sku` and `quantity`. -/
structure WhItem where
  sku : String
  quantity : Int
  deriving Repr, DecidableEq

/-- One absolute `inventorySetQuantities` mutation call. -/
structure SetMutation where
  invItemId : String
  locId : String
  quantity : Int
  deriving Repr, DecidableEq

/-- The mutable `syncLog` counters of `syncInventoryToShopify`. -/
structure SyncLog where
  status : String
  totalItems : Nat
  updatedItems : Nat
  failedItems : Nat
  skippedItems : Nat
  errorMessage : Option String
  deriving Repr, DecidableEq

/-- The initial `syncLog` value. -/
def initLog : SyncLog :=
  { status := "success", totalItems := 0, updatedItems := 0,
    failedItems := 0, skippedItems := 0, errorMessage := none }

/-- One iteration of the matching loop: resolve the variant by exact SKU
equality, skip when there is no variant / no inventory-item id / no
first inventory-level location, otherwise issue exactly one absolute
set-quantity mutation (whose success `updateOk` reports) and bump the
corresponding counter.  Returns the counter deltas and the mutation
calls issued for this warehouse item. -/
def cronSyncItem (variants : List CronVariant)
    (updateOk : SetMutation → Bool) (log : SyncLog) (item : WhItem) :
    SyncLog × List SetMutation :=
  match variants.find? (fun v => v.sku == item.sku) with
  | none => ({ log with skippedItems := log.skippedItems + 1 }, [])
  | some variant =>
    match variant.inventoryItem with
    | none => ({ log with skippedItems := log.skippedItems + 1 }, [])
    | some ii =>
      if ii.id == "" then
        ({ log with skippedItems := log.skippedItems + 1 }, [])
      else
        match ii.levelLocIds with
        | [] => ({ log with skippedItems := log.skippedItems + 1 }, [])
        | locId :: _ =>
          if locId == "" then
            ({ log with skippedItems := log.skippedItems + 1 }, [])
          else if updateOk ⟨ii.id, locId, item.quantity⟩ then
            ({ log with updatedItems := log.updatedItems + 1 },
              [⟨ii.id, locId, item.quantity⟩])
          else
            ({ log with failedItems := log.failedItems + 1 },
              [⟨ii.id, locId, item.quantity⟩])

/-- The matching loop folded over the warehouse inventory. -/
def cronSyncLoop (variants : List CronVariant)
    (updateOk : SetMutation → Bool) :
    List WhItem → SyncLog → SyncLog × List SetMutation
  | [], log => (log, [])
  | item :: rest, log =>
    let r := cronSyncItem variants updateOk log item
    let r2 := cronSyncLoop variants updateOk rest r.1
    (r2.1, r.2 ++ r2.2)

/-- The final-status derivation at the end of the matching loop:
`failed` when there are failures and no update succeeded, `partial` when
there are failures alongside updates, otherwise the log is returned
unchanged (its status still the initial `success`). -/
def finalizeLog (log : SyncLog) : SyncLog :=
  if log.failedItems > 0 && log.updatedItems == 0 then
    { status := "failed", totalItems := log.totalItems,
      updatedItems := log.updatedItems, failedItems := log.failedItems,
      skippedItems := log.skippedItems,
      errorMessage := some "All items failed to update" }
  else if log.failedItems > 0 then
    { status := "partial", totalItems := log.totalItems,
      updatedItems := log.updatedItems, failedItems := log.failedItems,
      skippedItems := log.skippedItems,
      errorMessage :=
        some (toString log.failedItems ++ " items failed to update") }
  else log

/-- `syncInventoryToShopify(admin)` of the cron engine, with the two
remote fetches supplied as data: empty warehouse data and empty variant
list each short-circuit to a `partial` summary; otherwise the matching
loop runs and the final status is derived from the failure/update
counters. -/
def syncInventoryToShopify (warehouseInventory : List WhItem)
    (shopifyVariants : List CronVariant)
    (updateOk : SetMutation → Bool) : SyncLog × List SetMutation :=
  if warehouseInventory.isEmpty then
    ({ status := "partial", totalItems := warehouseInventory.length,
       updatedItems := 0, failedItems := 0, skippedItems := 0,
       errorMessage := some "No inventory data from warehouse" }, [])
  else if shopifyVariants.isEmpty then
    ({ status := "partial", totalItems := warehouseInventory.length,
       updatedItems := 0, failedItems := 0, skippedItems := 0,
       errorMessage := some "No Shopify variants found" }, [])
  else
    let r := cronSyncLoop shopifyVariants updateOk warehouseInventory
      { status := "success", totalItems := warehouseInventory.length,
        updatedItems := 0, failedItems := 0, skippedItems := 0,
        errorMessage := none }
    (finalizeLog r.1, r.2)

end ShopifyInventorySync

/-! ## Warehouse page fetching (`fetchWarehouseById` / `fetchWarehouseInventory`) -/

namespace WarehouseFetch

open WarehouseApi

/-- One HTTP response of the warehouse `/inventories` endpoint: the
`response.ok` flag, the numeric status, and the JSON body's `data`,
`current_page` and `last_page` fields. -/
structure PageResponse where
  ok : Bool
  status : Nat
  data : List RawRecord
  current_page : Nat
  last_page : Nat
  deriving Repr, DecidableEq

/-- The page loop of `fetchWarehouseById`: request pages starting at 1,
accumulate each page's records, and continue while
`current_page < last_page`.  The remote endpoint is a function from the
requested page number to its response; the result carries the list of
page numbers actually requested so the retry behavior is observable.
The `fuel` bound only truncates a server that never reports a last
page. -/
def fetchPages (pages : Nat → PageResponse) :
    Nat → Nat → List RawRecord → List Nat →
    Except String (List RawRecord) × List Nat
  | 0, _, _, requested => (Except.error "out of fuel", requested)
  | fuel + 1, currentPage, acc, requested =>
    let resp := pages currentPage
    let requested := requested ++ [currentPage]
    if !resp.ok then
      (Except.error ("Warehouse API returned " ++ toString resp.status), requested)
    else
      let acc := acc ++ resp.data
      if resp.current_page < resp.last_page then
        fetchPages pages fuel (currentPage + 1) acc requested
      else
        (Except.ok acc, requested)

/-- `fetchWarehouseById(warehouseId)`: page through the endpoint of one
warehouse, all-or-nothing.  A non-success HTTP status throws
immediately — one request per page, no retry. -/
def fetchWarehouseById (pages : Nat → PageResponse) (fuel : Nat) :
    Except String (List RawRecord) × List Nat :=
  fetchPages pages fuel 1 [] []

/-- The variant of `fetchWarehouseInventory` that propagates failures
(the `warehouseApi` version without mock fallback): fetch warehouse 7,
then warehouse 9, merge; any page error rethrows and the caller receives
no list at all. -/
def fetchWarehouseInventoryStrict (pages7 pages9 : Nat → PageResponse)
    (fuel : Nat) : Except String (List CanonicalItem) :=
  match (fetchWarehouseById pages7 fuel).1 with
  | Except.error e => Except.error e
  | Except.ok warehouse7Data =>
    match (fetchWarehouseById pages9 fuel).1 with
    | Except.error e => Except.error e
    | Except.ok warehouse9Data =>
      Except.ok (mergeWarehouseData warehouse7Data warehouse9Data)

/-- The mock records hard-coded for warehouse 7 (skus and sale
quantities of `MOCK_WAREHOUSE_7_DATA`). -/
def mockWarehouse7Data : List RawRecord :=
  [ { product := some { sku := "4511413305478"
                        name := some "DHC - Dầu tẩy trang 70ml" }
      sale_inventory_quantity := some 100 },
    { product := some { sku := "4513574027060"
                        name := some "KUMANO - Sữa rửa mặt trắng da Hatomugi 130g màu trắng" }
      sale_inventory_quantity := some 200 } ]

/-- The mock records hard-coded for warehouse 9. -/
def mockWarehouse9Data : List RawRecord :=
  [ { product := some { sku := "4511413305478"
                        name := some "DHC - Dầu tẩy trang 70ml" }
      sale_inventory_quantity := some 80 },
    { product := some { sku := "4513574027060"
                        name := some "KUMANO - Sữa rửa mặt trắng da Hatomugi 130g màu trắng" }
      sale_inventory_quantity := some 150 } ]

/-- `getMockInventory()`: merge the hard-coded mock warehouse data and
perturb each quantity by `Math.floor(Math.random()*11) - 5`, clamped at
0.  The random draws are supplied as an oracle sequence consumed one
value per location entry. -/
def getMockInventory (rand : Nat → Int) : List CanonicalItem :=
  let inventory := mergeWarehouseData mockWarehouse7Data mockWarehouse9Data
  (inventory.foldl (fun (acc : List CanonicalItem × Nat) item =>
    let (done, k) := acc
    let locs := item.locations.foldl
      (fun (acc2 : List LocationQuantity × Nat) loc =>
        let (ls, j) := acc2
        (ls ++ [{ loc with quantity := max 0 (loc.quantity + rand j) }], j + 1))
      ([], k)
    (done ++ [{ item with locations := locs.1 }], locs.2)) ([], 0)).1

/-- The variant of `fetchWarehouseInventory` with mock fallback (the
`warehouseApi` version used by the multi-location engine): any error
while fetching the real warehouses is caught and the mock inventory is
returned instead of surfacing the failure. -/
def fetchWarehouseInventoryWithFallback (pages7 pages9 : Nat → PageResponse)
    (fuel : Nat) (rand : Nat → Int) : List CanonicalItem :=
  match fetchWarehouseInventoryStrict pages7 pages9 fuel with
  | Except.ok inventory => inventory
  | Except.error _ => getMockInventory rand

end WarehouseFetch

/-! ## Cron scheduling guard (`startCronJobs` in the cron setup module) -/

namespace CronGuard

/-- Process-wide scheduler state: the module-level `cronJobsStarted`
boolean plus the number of sync runs currently executing. -/
structure CronState where
  cronJobsStarted : Bool
  inFlight : Nat
  deriving Repr, DecidableEq

/-- The state before the module is loaded. -/
def initState : CronState := { cronJobsStarted := false, inFlight := 0 }

/-- The events the scheduling code reacts to: a `startCronJobs` call, a
scheduled tick beginning a run, a manual trigger beginning a run, and a
run finishing. -/
inductive CronEvent where
  | startCron
  | beginScheduledRun
  | beginManualRun
  | endRun
  deriving Repr, DecidableEq

/-- The transition function.  `startCronJobs` checks (only) the
`cronJobsStarted` flag and returns early when it is already set; a
scheduled tick requires the scheduler to have been started but performs
no in-flight check before invoking the sync; the manual trigger
(`triggerInventorySyncManually`) performs no check at all; a run
finishing decrements the in-flight count. -/
def cronStep (s : CronState) : CronEvent → CronState
  | CronEvent.startCron =>
    if s.cronJobsStarted then s else { s with cronJobsStarted := true }
  | CronEvent.beginScheduledRun =>
    if s.cronJobsStarted then { s with inFlight := s.inFlight + 1 } else s
  | CronEvent.beginManualRun => { s with inFlight := s.inFlight + 1 }
  | CronEvent.endRun => { s with inFlight := s.inFlight - 1 }

/-- Run a sequence of events from a state. -/
def runTrace (s : CronState) (events : List CronEvent) : CronState :=
  events.foldl cronStep s

end CronGuard

/-! ## Theorems -/

namespace WarehouseApi

theorem sku_addRecord (n : String) (acc : List CanonicalItem) (r : RawRecord)
    (h : (acc.map (fun it => it.sku)).Nodup) :
    ((addRecord n acc r).map (fun it => it.sku)).Nodup := by
  unfold addRecord
  cases hr : r.product with
  | none => exact h
  | some p =>
    by_cases h1 : p.sku == ""
    · simp [h1, h]
    · by_cases h2 : trimString p.sku == ""
      · simp [h1, h2, h]
      · simp only [h1, h2, Bool.false_eq_true, if_false, if_true]
        by_cases h3 : acc.any (fun it => it.sku == p.sku)
        · simp only [h3, if_true, List.map_map]
          have : acc.map ((fun it => it.sku) ∘ fun it =>
              if it.sku == p.sku then
                { it with locations := it.locations ++
                    [{ location_name := n,
                       quantity := r.sale_inventory_quantity.getD 0 }] }
              else it) = acc.map (fun it => it.sku) := by
            apply List.map_congr_left
            intro a _
            simp only [Function.comp_apply]
            split <;> rfl
          rw [this]
          exact h
        · simp only [h3, Bool.false_eq_true, if_false, List.map_append,
            List.map_cons, List.map_nil]
          rw [List.nodup_append]
          refine ⟨h, List.nodup_singleton _, ?_⟩
          intro a ha hb
          simp only [List.mem_singleton] at hb
          subst hb
          simp only [List.mem_map] at ha
          obtain ⟨it, hit, hsku⟩ := ha
          have : acc.any (fun it => it.sku == p.sku) = true := by
            rw [List.any_eq_true]
            exact ⟨it, hit, by simp [hsku]⟩
          exact h3 this

theorem totalLocationEntries_update (acc : List CanonicalItem) (s : String)
    (entry : LocationQuantity) (hnd : (acc.map (fun it => it.sku)).Nodup)
    (hany : acc.any (fun it => it.sku == s) = true) :
    totalLocationEntries (acc.map (fun it =>
      if it.sku == s then { it with locations := it.locations ++ [entry] }
      else it)) = totalLocationEntries acc + 1 := by
  induction acc with
  | nil => simp at hany
  | cons it rest ih =>
    simp only [List.map_cons, List.nodup_cons] at hnd
    by_cases hx : it.sku == s
    · have hrest : rest.map (fun it' =>
          if it'.sku == s then { it' with locations := it'.locations ++ [entry] }
          else it') = rest := by
        have : ∀ a ∈ rest, (if a.sku == s then
            { a with locations := a.locations ++ [entry] } else a) = a := by
          intro a ha
          have : a.sku ≠ s := by
            intro hc
            apply hnd.1
            rw [List.mem_map]
            refine ⟨a, ha, ?_⟩
            rw [hc]
            exact (beq_iff_eq.mp hx).symm
          simp [this]
        calc rest.map _ = rest.map id := List.map_congr_left this
          _ = rest := List.map_id rest
      simp only [List.map_cons, hx, if_true, hrest, totalLocationEntries,
        List.map_cons, List.sum_cons, List.length_append, List.length_singleton]
      omega
    · simp only [List.any_cons, hx, Bool.false_or] at hany
      have := ih hnd.2 hany
      simp only [List.map_cons, hx, Bool.false_eq_true, if_false,
        totalLocationEntries, List.map_cons, List.sum_cons] at this ⊢
      omega

theorem totalLocationEntries_addRecord (n : String) (acc : List CanonicalItem)
    (r : RawRecord) (h : (acc.map (fun it => it.sku)).Nodup) :
    totalLocationEntries (addRecord n acc r) =
      totalLocationEntries acc + (if validRecord r then 1 else 0) := by
  unfold addRecord validRecord
  cases hr : r.product with
  | none => simp
  | some p =>
    by_cases h1 : p.sku == ""
    · simp [h1]
    · by_cases h2 : trimString p.sku == ""
      · simp [h1, h2]
      · simp only [h1, h2, Bool.false_eq_true, if_false, if_true,
          Bool.not_false, Bool.and_self]
        by_cases h3 : acc.any (fun it => it.sku == p.sku)
        · simp only [h3, if_true]
          exact totalLocationEntries_update acc p.sku _ h h3
        · simp only [h3, Bool.false_eq_true, if_false, totalLocationEntries,
            List.map_append, List.sum_append]
          simp

theorem foldl_addRecord_invariant (n : String) (rs : List RawRecord)
    (acc : List CanonicalItem) (h : (acc.map (fun it => it.sku)).Nodup) :
    ((rs.foldl (addRecord n) acc).map (fun it => it.sku)).Nodup ∧
      totalLocationEntries (rs.foldl (addRecord n) acc) =
        totalLocationEntries acc + rs.countP (fun r => validRecord r) := by
  induction rs generalizing acc with
  | nil => simp [h]
  | cons r rest ih =>
    have hstep := sku_addRecord n acc r h
    have hcount := totalLocationEntries_addRecord n acc r h
    obtain ⟨ih1, ih2⟩ := ih (addRecord n acc r) hstep
    refine ⟨ih1, ?_⟩
    rw [List.foldl_cons] at *
    rw [ih2, hcount]
    simp only [List.countP_cons]
    split_ifs <;> omega

/-- C8: for any two raw warehouse page-result lists, the merged canonical
list has pairwise-distinct SKUs, and every valid raw record contributes
exactly one `LocationQuantity` entry — duplicates merge into the existing
item's locations list instead of creating a new item. -/
theorem mergeWarehouseData_sku_unique (d7 d9 : List RawRecord) :
    (((mergeWarehouseData d7 d9).map (fun it => it.sku)).Nodup) ∧
      totalLocationEntries (mergeWarehouseData d7 d9) =
        d7.countP (fun r => validRecord r) + d9.countP (fun r => validRecord r) := by
  unfold mergeWarehouseData
  obtain ⟨h7a, h7b⟩ := foldl_addRecord_invariant warehouse7Name d7 [] (by simp)
  obtain ⟨h9a, h9b⟩ :=
    foldl_addRecord_invariant warehouse9Name d9 _ h7a
  refine ⟨h9a, ?_⟩
  rw [h9b, h7b]
  simp [totalLocationEntries]

end WarehouseApi

namespace CronGuard

/-- C9 counterexample: after the scheduler starts, a scheduled tick and a
manual trigger arriving before the first run finishes put two sync runs
in flight at once — nothing in the code checks an in-flight count before
invoking the sync, so the claimed mutual exclusion does not hold. -/
theorem overlapping_runs_reachable :
    (runTrace initState
      [CronEvent.startCron, CronEvent.beginScheduledRun,
        CronEvent.beginManualRun]).inFlight = 2 := by
  decide

/-- C9 (amended): the module-level `cronJobsStarted` flag guards only the
initialization of the cron schedule — a second `startCronJobs` call on a
started scheduler is a no-op — while beginning a run is never guarded:
a manual trigger, and a scheduled tick once the scheduler is started,
each increment the number of in-flight runs whatever that number is. -/
theorem cron_flag_guards_only_initialization (s : CronState)
    (h : s.cronJobsStarted = true) :
    cronStep s CronEvent.startCron = s ∧
      (cronStep s CronEvent.beginManualRun).inFlight = s.inFlight + 1 ∧
      (cronStep s CronEvent.beginScheduledRun).inFlight = s.inFlight + 1 := by
  refine ⟨?_, rfl, ?_⟩ <;> simp [cronStep, h]

/-- Witness for the amended C9 at the started state with one run in flight. -/
theorem cron_flag_guards_only_initialization_witness :
    cronStep { cronJobsStarted := true, inFlight := 1 } CronEvent.startCron =
        { cronJobsStarted := true, inFlight := 1 } ∧
      (cronStep { cronJobsStarted := true, inFlight := 1 }
        CronEvent.beginManualRun).inFlight = 2 ∧
      (cronStep { cronJobsStarted := true, inFlight := 1 }
        CronEvent.beginScheduledRun).inFlight = 2 :=
  cron_flag_guards_only_initialization
    { cronJobsStarted := true, inFlight := 1 } rfl

end CronGuard

namespace ShopifyInventorySync

theorem cronSyncItem_status (variants : List CronVariant)
    (updateOk : SetMutation → Bool) (log : SyncLog) (item : WhItem) :
    (cronSyncItem variants updateOk log item).1.status = log.status := by
  unfold cronSyncItem
  repeat' split
  all_goals rfl

theorem finalizeLog_failedItems (log : SyncLog) :
    (finalizeLog log).failedItems = log.failedItems := by
  unfold finalizeLog
  split_ifs <;> rfl

theorem finalizeLog_updatedItems (log : SyncLog) :
    (finalizeLog log).updatedItems = log.updatedItems := by
  unfold finalizeLog
  split_ifs <;> rfl

theorem finalizeLog_status (log : SyncLog) (h : log.status = "success") :
    ((finalizeLog log).status = "failed" ↔
        log.failedItems > 0 ∧ log.updatedItems = 0) ∧
      ((finalizeLog log).status = "partial" ↔
        log.failedItems > 0 ∧ log.updatedItems > 0) ∧
      ((finalizeLog log).status = "success" ↔ log.failedItems = 0) := by
  unfold finalizeLog
  by_cases h1 : (log.failedItems > 0 && log.updatedItems == 0) = true
  · rw [if_pos h1]
    simp only [Bool.and_eq_true, decide_eq_true_eq, beq_iff_eq] at h1
    obtain ⟨hf, hu⟩ := h1
    refine ⟨by simp [hf, hu], by simp [hu], ?_⟩
    simp only [SyncLog.status]
    simp
    omega
  · rw [if_neg h1]
    by_cases hf : log.failedItems > 0
    · rw [if_pos hf]
      have hu : log.updatedItems ≠ 0 := by
        intro hc
        exact h1 (by simp [hf, hc])
      refine ⟨by simp [hu], by simp [hf, Nat.pos_of_ne_zero hu], ?_⟩
      simp only [SyncLog.status]
      simp
      omega
    · rw [if_neg hf]
      rw [h]
      have hf0 : log.failedItems = 0 := by omega
      exact ⟨by simp [hf0], by simp [hf0], by simp [hf0]⟩

theorem cronSyncLoop_status (variants : List CronVariant)
    (updateOk : SetMutation → Bool) (items : List WhItem) (log : SyncLog) :
    (cronSyncLoop variants updateOk items log).1.status = log.status := by
  induction items generalizing log with
  | nil => rfl
  | cons item rest ih =>
    simp only [cronSyncLoop]
    rw [ih]
    exact cronSyncItem_status variants updateOk log item

/-- C10: in the cron-scheduled engine, a warehouse item whose SKU
resolves to a variant holding an inventory item with at least one
inventory level triggers exactly one absolute set-quantity mutation,
writing the warehouse item's quantity at the first listed level's
location — for every outcome of the platform call, with no comparison of
current and target quantity and no use of the warehouse location name. -/
theorem cron_engine_unconditional_set_mutation
    (variants : List CronVariant) (updateOk : SetMutation → Bool)
    (log : SyncLog) (item : WhItem) (v : CronVariant) (ii : CronInvItem)
    (locId : String) (rest : List String)
    (hfind : variants.find? (fun x => x.sku == item.sku) = some v)
    (hii : v.inventoryItem = some ii)
    (hid : ii.id ≠ "")
    (hlv : ii.levelLocIds = locId :: rest)
    (hloc : locId ≠ "") :
    (cronSyncItem variants updateOk log item).2 =
      [{ invItemId := ii.id, locId := locId, quantity := item.quantity }] := by
  simp only [cronSyncItem, hfind, hii, hlv, beq_iff_eq, hid, hloc, if_false]
  split <;> rfl

/-- Witness for C10 at a one-variant catalog and a concrete item. -/
theorem cron_engine_unconditional_set_mutation_witness :
    (([⟨"s", some ⟨"I", ["L1", "L2"]⟩⟩] : List CronVariant).find?
        (fun x => x.sku == (⟨"s", 42⟩ : WhItem).sku) =
          some ⟨"s", some ⟨"I", ["L1", "L2"]⟩⟩) ∧
      (cronSyncItem ([⟨"s", some ⟨"I", ["L1", "L2"]⟩⟩] : List CronVariant)
        (fun _ => true) initLog ⟨"s", 42⟩).2 = [⟨"I", "L1", 42⟩] :=
  ⟨by decide,
    cron_engine_unconditional_set_mutation
      ([⟨"s", some ⟨"I", ["L1", "L2"]⟩⟩] : List CronVariant)
      (fun _ => true) initLog ⟨"s", 42⟩
      ⟨"s", some ⟨"I", ["L1", "L2"]⟩⟩ ⟨"I", ["L1", "L2"]⟩ "L1" ["L2"]
      (by decide) rfl (by decide) rfl (by decide)⟩

/-- C3 counterexample: a non-empty warehouse list with an empty fetched
variant list yields status `partial` with no hard error and no update,
where the claim's `otherwise the status is success` clause would require
`success`. -/
theorem cron_status_empty_variants_partial :
    ((syncInventoryToShopify [{ sku := "s", quantity := 5 }] []
        (fun _ => true)).1.status = "partial") ∧
      ((syncInventoryToShopify [{ sku := "s", quantity := 5 }] []
        (fun _ => true)).1.failedItems = 0) ∧
      ((syncInventoryToShopify [{ sku := "s", quantity := 5 }] []
        (fun _ => true)).1.updatedItems = 0) := by
  refine ⟨rfl, rfl, rfl⟩

/-- C3 (amended): the run's final status is `failed` iff at least one
item-level hard error occurred and no update succeeded; it is `partial`
iff hard errors occurred alongside at least one successful update, or
the warehouse fetch returned an empty list, or the commerce variant
fetch returned an empty list; otherwise — no hard error, both fetches
non-empty — it is `success`. -/
theorem cron_status_characterization (warehouseInventory : List WhItem)
    (shopifyVariants : List CronVariant) (updateOk : SetMutation → Bool) :
    ((syncInventoryToShopify warehouseInventory shopifyVariants updateOk).1.status
        = "failed" ↔
      (syncInventoryToShopify warehouseInventory shopifyVariants updateOk).1.failedItems > 0 ∧
        (syncInventoryToShopify warehouseInventory shopifyVariants updateOk).1.updatedItems = 0) ∧
    ((syncInventoryToShopify warehouseInventory shopifyVariants updateOk).1.status
        = "partial" ↔
      ((syncInventoryToShopify warehouseInventory shopifyVariants updateOk).1.failedItems > 0 ∧
        (syncInventoryToShopify warehouseInventory shopifyVariants updateOk).1.updatedItems > 0) ∨
        warehouseInventory = [] ∨ shopifyVariants = []) ∧
    ((syncInventoryToShopify warehouseInventory shopifyVariants updateOk).1.status
        = "success" ↔
      (syncInventoryToShopify warehouseInventory shopifyVariants updateOk).1.failedItems = 0 ∧
        warehouseInventory ≠ [] ∧ shopifyVariants ≠ []) := by
  unfold syncInventoryToShopify
  by_cases hw : warehouseInventory.isEmpty = true
  · rw [List.isEmpty_iff] at hw
    subst hw
    simp
  · have hw' : warehouseInventory ≠ [] := by
      intro hc
      rw [hc] at hw
      exact hw rfl
    rw [if_neg hw]
    by_cases hv : shopifyVariants.isEmpty = true
    · rw [List.isEmpty_iff] at hv
      subst hv
      simp [hw']
    · have hv' : shopifyVariants ≠ [] := by
        intro hc
        rw [hc] at hv
        exact hv rfl
      rw [if_neg hv]
      set L := (cronSyncLoop shopifyVariants updateOk warehouseInventory
        { status := "success", totalItems := warehouseInventory.length,
          updatedItems := 0, failedItems := 0, skippedItems := 0,
          errorMessage := none }).1 with hL
      have hst : L.status = "success" := by
        rw [hL]
        exact cronSyncLoop_status _ _ _ _
      obtain ⟨e1, e2, e3⟩ := finalizeLog_status L hst
      simp only [finalizeLog_failedItems, finalizeLog_updatedItems]
      refine ⟨e1, ?_, ?_⟩
      · rw [e2]
        simp [hw', hv']
      · rw [e3]
        simp [hw', hv']

end ShopifyInventorySync

namespace WarehouseFetch

theorem fetchPages_requested (pages : Nat → PageResponse) :
    ∀ (fuel start : Nat) (acc : List WarehouseApi.RawRecord) (req : List Nat),
      ∃ k, (fetchPages pages fuel start acc req).2 = req ++ List.range' start k := by
  intro fuel
  induction fuel with
  | zero =>
    intro start acc req
    exact ⟨0, by simp [fetchPages]⟩
  | succ n ih =>
    intro start acc req
    unfold fetchPages
    by_cases hok : (pages start).ok
    · simp only [hok, Bool.not_true, Bool.false_eq_true, if_false]
      by_cases hmore : (pages start).current_page < (pages start).last_page
      · simp only [hmore, if_true]
        obtain ⟨k, hk⟩ := ih (start + 1) (acc ++ (pages start).data) (req ++ [start])
        refine ⟨k + 1, ?_⟩
        rw [hk, List.range'_succ]
        simp
      · simp only [hmore, if_false]
        exact ⟨1, by simp [List.range']⟩
    · have : (!(pages start).ok) = true := by simp [hok]
      simp only [this, if_true]
      exact ⟨1, by simp [List.range']⟩

/-- C4 (amended): a non-success HTTP status on any warehouse page makes
the page fetch throw at once — across a whole fetch every page number is
requested at most once, so there is no retry, with or without backoff;
in the strict `fetchWarehouseInventory` variant the error propagates and
the caller receives no canonical list at all (all-or-nothing), while in
the mock-fallback variant the error is swallowed and the hard-coded mock
inventory is returned in place of fresh warehouse data. -/
theorem fetch_no_retry_all_or_nothing (pages7 pages9 : Nat → PageResponse)
    (fuel : Nat) (rand : Nat → Int) (e : String)
    (h7 : (fetchWarehouseById pages7 fuel).1 = Except.error e) :
    (fetchWarehouseById pages7 fuel).2.Nodup ∧
      fetchWarehouseInventoryStrict pages7 pages9 fuel = Except.error e ∧
      fetchWarehouseInventoryWithFallback pages7 pages9 fuel rand =
        getMockInventory rand := by
  refine ⟨?_, ?_, ?_⟩
  · obtain ⟨k, hk⟩ := fetchPages_requested pages7 fuel 1 [] []
    unfold fetchWarehouseById
    rw [hk]
    simp only [List.nil_append]
    have := List.pairwise_lt_range' 1 k
    exact this.imp (fun {a b} hlt => Nat.ne_of_lt hlt)
  · unfold fetchWarehouseInventoryStrict
    rw [h7]
  · unfold fetchWarehouseInventoryWithFallback
    have : fetchWarehouseInventoryStrict pages7 pages9 fuel = Except.error e := by
      unfold fetchWarehouseInventoryStrict
      rw [h7]
    rw [this]

/-- Witness for the amended C4: a server whose every page answers HTTP
500 is asked for page 1 exactly once, the strict fetch surfaces the
error, and the fallback fetch substitutes the mock inventory. -/
theorem fetch_no_retry_all_or_nothing_witness :
    ((fetchWarehouseById (fun _ => ⟨false, 500, [], 1, 1⟩) 10).1 =
        Except.error "Warehouse API returned 500") ∧
      (fetchWarehouseById (fun _ => ⟨false, 500, [], 1, 1⟩) 10).2.Nodup ∧
      fetchWarehouseInventoryStrict (fun _ => ⟨false, 500, [], 1, 1⟩)
          (fun _ => ⟨false, 500, [], 1, 1⟩) 10 =
        Except.error "Warehouse API returned 500" ∧
      fetchWarehouseInventoryWithFallback (fun _ => ⟨false, 500, [], 1, 1⟩)
          (fun _ => ⟨false, 500, [], 1, 1⟩) 10 (fun _ => 0) =
        getMockInventory (fun _ => 0) :=
  ⟨rfl, fetch_no_retry_all_or_nothing _ _ 10 (fun _ => 0)
    "Warehouse API returned 500" rfl⟩

/-- C4 counterexample: with every page answering HTTP 500, the
fetch requests the failing page exactly once (no retried attempt
exists), and the engine-facing fetch returns the two-item mock
inventory — a substitute canonical list — instead of surfacing a fatal
error. -/
theorem fetch_retry_claim_counterexample :
    ((fetchWarehouseById (fun _ => ⟨false, 500, [], 1, 1⟩) 10).2 = [1]) ∧
      ((fetchWarehouseInventoryWithFallback (fun _ => ⟨false, 500, [], 1, 1⟩)
          (fun _ => ⟨false, 500, [], 1, 1⟩) 10 (fun _ => 0)).map
        (fun it => it.sku) = ["4511413305478", "4513574027060"]) :=
  ⟨rfl, by decide⟩

end WarehouseFetch

namespace InventorySync

open WarehouseApi (LocationQuantity CanonicalItem)

/-- C1: for a warehouse location entry that resolves to an existing
commerce inventory level: when the current available quantity equals the
requested quantity the step reports success and skipped and issues no
mutation call and leaves the platform untouched; otherwise it issues
exactly one relative adjustment whose signed delta is target minus
current (current 100, target 130 gives +30; current 100, target 70
gives -30). -/
theorem reconcile_delta_correct (shopLocations : List ShopLocation)
    (invItemId sku : String) (snapshot levels : List InvLevel)
    (wloc : LocationQuantity) (lvl : InvLevel)
    (hfind : findLevel snapshot wloc.location_name = some lvl) :
    (lvl.available = wloc.quantity →
      (syncLocationStep shopLocations invItemId sku snapshot levels wloc).1.success = true ∧
        (syncLocationStep shopLocations invItemId sku snapshot levels wloc).1.skipped = true ∧
        (syncLocationStep shopLocations invItemId sku snapshot levels wloc).2.1 = [] ∧
        (syncLocationStep shopLocations invItemId sku snapshot levels wloc).2.2 = levels) ∧
      (lvl.available ≠ wloc.quantity →
        (syncLocationStep shopLocations invItemId sku snapshot levels wloc).2.1 =
          [Mutation.adjust invItemId lvl.locId (wloc.quantity - lvl.available)]) := by
  have e : syncLocationStep shopLocations invItemId sku snapshot levels wloc =
      adjustPhase invItemId sku snapshot levels wloc lvl := by
    unfold syncLocationStep
    rw [hfind]
  rw [e]
  simp only [adjustPhase]
  constructor
  · intro heq
    rw [if_pos heq]
    exact ⟨rfl, rfl, rfl, rfl⟩
  · intro hne
    rw [if_neg hne]

/-- Witness for C1: an existing level at 100 with target 130 issues the
single +30 adjustment, and with target 100 the skip branch applies. -/
theorem reconcile_delta_correct_witness :
    (findLevel [⟨"I", "L", "Narita - JP", 100⟩] "Narita - JP" =
        some ⟨"I", "L", "Narita - JP", 100⟩) ∧
      (syncLocationStep [] "I" "S" [⟨"I", "L", "Narita - JP", 100⟩]
          [⟨"I", "L", "Narita - JP", 100⟩] ⟨"Narita - JP", 130⟩).2.1 =
        [Mutation.adjust "I" "L" 30] ∧
      (syncLocationStep [] "I" "S" [⟨"I", "L", "Narita - JP", 100⟩]
          [⟨"I", "L", "Narita - JP", 100⟩] ⟨"Narita - JP", 100⟩).2.1 = [] :=
  ⟨by decide,
    (reconcile_delta_correct [] "I" "S" [⟨"I", "L", "Narita - JP", 100⟩]
        [⟨"I", "L", "Narita - JP", 100⟩] ⟨"Narita - JP", 130⟩
        ⟨"I", "L", "Narita - JP", 100⟩ (by decide)).2 (by decide),
    ((reconcile_delta_correct [] "I" "S" [⟨"I", "L", "Narita - JP", 100⟩]
        [⟨"I", "L", "Narita - JP", 100⟩] ⟨"Narita - JP", 100⟩
        ⟨"I", "L", "Narita - JP", 100⟩ (by decide)).1 rfl).2.2.1⟩

theorem syncLocationStep_unmatched (shopLocations : List ShopLocation)
    (invItemId sku : String) (snapshot levels : List InvLevel)
    (wloc : LocationQuantity)
    (h1 : findLevel snapshot wloc.location_name = none)
    (h2 : findShopLocation shopLocations wloc.location_name = none) :
    syncLocationStep shopLocations invItemId sku snapshot levels wloc =
      (unmatchedOutcome sku wloc.location_name, [], levels) := by
  unfold syncLocationStep
  rw [h1, h2]

theorem syncLocations_unmatched_at (shopLocations : List ShopLocation)
    (invItemId sku : String) (snapshot : List InvLevel) :
    ∀ (locs : List LocationQuantity) (levels : List InvLevel) (i : Nat)
      (wloc : LocationQuantity),
      locs.get? i = some wloc →
      findLevel snapshot wloc.location_name = none →
      findShopLocation shopLocations wloc.location_name = none →
      (syncLocations shopLocations invItemId sku snapshot locs levels).1.get? i =
        some (unmatchedOutcome sku wloc.location_name) := by
  intro locs
  induction locs with
  | nil =>
    intro levels i wloc hwl _ _
    simp at hwl
  | cons wloc0 rest ih =>
    intro levels i wloc hwl h1 h2
    have hout : (syncLocations shopLocations invItemId sku snapshot
        (wloc0 :: rest) levels).1 =
        (syncLocationStep shopLocations invItemId sku snapshot levels wloc0).1 ::
          (syncLocations shopLocations invItemId sku snapshot rest
            (syncLocationStep shopLocations invItemId sku snapshot
              levels wloc0).2.2).1 := rfl
    rw [hout]
    cases i with
    | zero =>
      have hw0 : wloc0 = wloc := by simpa using hwl
      subst hw0
      rw [syncLocationStep_unmatched shopLocations invItemId sku snapshot
        levels wloc0 h1 h2]
      rfl
    | succ j =>
      have hwl' : rest.get? j = some wloc := by simpa using hwl
      have hrec := ih
        (syncLocationStep shopLocations invItemId sku snapshot levels wloc0).2.2
        j wloc hwl' h1 h2
      simpa using hrec

/-- C6 (amended): when the SKU resolves to a variant and the item's level
list or the shop's location list is non-empty (the early location-"all"
return of reconcileItem is not taken), a warehouse location entry with no
normalized match among the item's levels nor anywhere in the shop's
location list gets, at its own position in reconcileItem's outcome list,
the skipped, unsuccessful outcome whose message names the missing
commerce location, and the processing step of that entry issues no
activation and no adjustment mutation and leaves the platform state
untouched, whatever state the loop has reached.  (When both lists are
empty the item instead gets a single location-"all" outcome that does
not name the location.) -/
theorem unmatched_location_reported_item (w : World) (item : CanonicalItem)
    (v : Variant) (i : Nat) (wloc : LocationQuantity)
    (hv : w.variants.find? (fun x => x.sku == item.sku) = some v)
    (hguard : ((levelsFor w.levels v.invItemId).isEmpty &&
      w.shopLocations.isEmpty) = false)
    (hwl : item.locations.get? i = some wloc)
    (h1 : findLevel (levelsFor w.levels v.invItemId) wloc.location_name = none)
    (h2 : findShopLocation w.shopLocations wloc.location_name = none) :
    (syncProductInventory w item).1.get? i =
        some (unmatchedOutcome item.sku wloc.location_name) ∧
      (unmatchedOutcome item.sku wloc.location_name).success = false ∧
      (unmatchedOutcome item.sku wloc.location_name).skipped = true ∧
      (unmatchedOutcome item.sku wloc.location_name).location =
        wloc.location_name ∧
      (unmatchedOutcome item.sku wloc.location_name).message =
        "Location \"" ++ wloc.location_name ++
          "\" không tồn tại trong Shopify. Vui lòng tạo location này trong Settings > Locations." ∧
      ∀ levels, syncLocationStep w.shopLocations v.invItemId item.sku
          (levelsFor w.levels v.invItemId) levels wloc =
        (unmatchedOutcome item.sku wloc.location_name, [], levels) := by
  have estep0 : syncProductInventory w item =
      (if ((levelsFor w.levels v.invItemId).isEmpty &&
          w.shopLocations.isEmpty) = true
        then ([noLocationsOutcome item.sku], [], w)
        else ((syncLocations w.shopLocations v.invItemId item.sku
            (levelsFor w.levels v.invItemId) item.locations w.levels).1,
          (syncLocations w.shopLocations v.invItemId item.sku
            (levelsFor w.levels v.invItemId) item.locations w.levels).2.1,
          { w with levels := (syncLocations w.shopLocations v.invItemId item.sku
            (levelsFor w.levels v.invItemId) item.locations w.levels).2.2 })) := by
    unfold syncProductInventory
    rw [hv]
  have estep : syncProductInventory w item =
      ((syncLocations w.shopLocations v.invItemId item.sku
          (levelsFor w.levels v.invItemId) item.locations w.levels).1,
        (syncLocations w.shopLocations v.invItemId item.sku
          (levelsFor w.levels v.invItemId) item.locations w.levels).2.1,
        { w with levels := (syncLocations w.shopLocations v.invItemId item.sku
          (levelsFor w.levels v.invItemId) item.locations w.levels).2.2 }) := by
    rw [estep0]
    rw [if_neg (by rw [hguard]; exact Bool.false_ne_true)]
  refine ⟨?_, rfl, rfl, rfl, rfl, ?_⟩
  · rw [estep]
    exact syncLocations_unmatched_at w.shopLocations v.invItemId item.sku
      (levelsFor w.levels v.invItemId) item.locations w.levels i wloc hwl h1 h2
  · intro levels
    exact syncLocationStep_unmatched w.shopLocations v.invItemId item.sku
      (levelsFor w.levels v.invItemId) levels wloc h1 h2

/-- Witness for C6 (amended): a resolving SKU in a shop owning one
unrelated location, with the warehouse entry "Да Нанг" unmatched; the
item-level outcome at its position is the unmatched one and its step
issues no mutation. -/
theorem unmatched_location_reported_item_witness :
    ((⟨[⟨"S", "I"⟩], [], [⟨"L1", "Narita - JP"⟩]⟩ : World).variants.find?
        (fun x => x.sku == "S") = some ⟨"S", "I"⟩) ∧
      (findShopLocation [⟨"L1", "Narita - JP"⟩] "Да Нанг" = none) ∧
      (syncProductInventory ⟨[⟨"S", "I"⟩], [], [⟨"L1", "Narita - JP"⟩]⟩
          ⟨"S", "p", [⟨"Да Нанг", 9⟩]⟩).1.get? 0 =
        some (unmatchedOutcome "S" "Да Нанг") ∧
      (unmatchedOutcome "S" "Да Нанг").skipped = true ∧
      (unmatchedOutcome "S" "Да Нанг").success = false ∧
      (syncLocationStep [⟨"L1", "Narita - JP"⟩] "I" "S"
          (levelsFor ([] : List InvLevel) "I") [] ⟨"Да Нанг", 9⟩).2.1 = [] :=
  have h := unmatched_location_reported_item
    ⟨[⟨"S", "I"⟩], [], [⟨"L1", "Narita - JP"⟩]⟩ ⟨"S", "p", [⟨"Да Нанг", 9⟩]⟩
    ⟨"S", "I"⟩ 0 ⟨"Да Нанг", 9⟩ (by decide) (by decide) rfl (by decide)
    (by decide)
  ⟨by decide, by decide, h.1, h.2.2.1, h.2.1,
    by rw [h.2.2.2.2.2 []]⟩

/-- C6 counterexample: with a resolving variant but zero inventory levels
and zero shop locations, the warehouse entry "X" has no normalized match
among the item's levels nor anywhere in the shop's location list, yet
reconcileItem records a single outcome whose location field is "all" and
whose message ("No locations found in shop for SKU S") does not name the
missing location — the claimed per-pair outcome naming the location is
never recorded. -/
theorem unmatched_location_reported_counterexample :
    (findLevel (levelsFor
        (⟨[⟨"S", "I"⟩], [], []⟩ : World).levels "I") "X" = none) ∧
      (findShopLocation (⟨[⟨"S", "I"⟩], [], []⟩ : World).shopLocations "X" =
        none) ∧
      (syncProductInventory ⟨[⟨"S", "I"⟩], [], []⟩
          ⟨"S", "p", [⟨"X", 7⟩]⟩).1 = [noLocationsOutcome "S"] ∧
      (noLocationsOutcome "S").location = "all" ∧
      (noLocationsOutcome "S").message = "No locations found in shop for SKU S" ∧
      (syncProductInventory ⟨[⟨"S", "I"⟩], [], []⟩
          ⟨"S", "p", [⟨"X", 7⟩]⟩).2.1 = [] := by
  refine ⟨by decide, by decide, by decide, rfl, rfl, by decide⟩

theorem findLevel_eq_of_normalize_eq (snapshot : List InvLevel)
    (a b : String) (h : normalizeLocationName a = normalizeLocationName b) :
    findLevel snapshot a = findLevel snapshot b := by
  unfold findLevel
  rw [h]

/-- C5 (amended): a warehouse location with no normalize-match among the
item's existing levels but with a normalize-match in the shop's location
list, where activation really creates a new level (the pair is not yet
tracked), is reconciled via one activation mutation followed, when the
target quantity is nonzero, by one adjustment of exactly the target
quantity from 0, and the outcome records previous 0, new and delta equal
to the target, and was_activated true.  (When the target is zero the
activation still happens but the outcome is the skipped-unchanged one.) -/
theorem location_auto_activation (shopLocations : List ShopLocation)
    (invItemId sku : String) (snapshot levels : List InvLevel)
    (wloc : LocationQuantity) (target : ShopLocation)
    (h1 : findLevel snapshot wloc.location_name = none)
    (h2 : findShopLocation shopLocations wloc.location_name = some target)
    (h3 : levels.find? (fun l =>
      l.invItemId == invItemId && l.locId == target.locId) = none)
    (h4 : wloc.quantity ≠ 0) :
    (syncLocationStep shopLocations invItemId sku snapshot levels wloc).2.1 =
        [Mutation.activate invItemId target.locId,
          Mutation.adjust invItemId target.locId wloc.quantity] ∧
      (syncLocationStep shopLocations invItemId sku snapshot levels wloc).1.success = true ∧
      (syncLocationStep shopLocations invItemId sku snapshot levels wloc).1.skipped = false ∧
      (syncLocationStep shopLocations invItemId sku snapshot levels wloc).1.previousQuantity = some 0 ∧
      (syncLocationStep shopLocations invItemId sku snapshot levels wloc).1.newQuantity = some wloc.quantity ∧
      (syncLocationStep shopLocations invItemId sku snapshot levels wloc).1.delta = some wloc.quantity ∧
      (syncLocationStep shopLocations invItemId sku snapshot levels wloc).1.wasActivated = some true := by
  have hnorm : normalizeLocationName target.name =
      normalizeLocationName wloc.location_name := by
    have := List.find?_some h2
    exact beq_iff_eq.mp this
  have hfl : findLevel snapshot target.name = none := by
    rw [findLevel_eq_of_normalize_eq snapshot target.name wloc.location_name hnorm]
    exact h1
  have ea : applyActivate levels invItemId target =
      (⟨invItemId, target.locId, target.name, 0⟩,
        levels ++ [⟨invItemId, target.locId, target.name, 0⟩]) := by
    unfold applyActivate
    rw [h3]
  have e : syncLocationStep shopLocations invItemId sku snapshot levels wloc =
      ((adjustPhase invItemId sku snapshot
          (levels ++ [⟨invItemId, target.locId, target.name, 0⟩]) wloc
          ⟨invItemId, target.locId, target.name, 0⟩).1,
        Mutation.activate invItemId target.locId ::
          (adjustPhase invItemId sku snapshot
            (levels ++ [⟨invItemId, target.locId, target.name, 0⟩]) wloc
            ⟨invItemId, target.locId, target.name, 0⟩).2.1,
        (adjustPhase invItemId sku snapshot
          (levels ++ [⟨invItemId, target.locId, target.name, 0⟩]) wloc
          ⟨invItemId, target.locId, target.name, 0⟩).2.2) := by
    unfold syncLocationStep
    rw [h1, h2]
    simp only [ea]
  rw [e]
  have hne : (0 : Int) ≠ wloc.quantity := fun hc => h4 hc.symm
  simp only [adjustPhase]
  rw [if_neg hne]
  unfold updatedOutcome
  refine ⟨by simp, rfl, rfl, rfl, rfl, by simp, by simp [hfl]⟩

/-- Witness for the amended C5: activating "Ba Đình - HN" for a fresh
level and applying target 80 as a delta from 0. -/
theorem location_auto_activation_witness :
    (findLevel ([] : List InvLevel) "Ba Đình - HN" = none) ∧
      (findShopLocation [⟨"L2", "Ba Đình - HN"⟩] "Ba Đình - HN" =
        some ⟨"L2", "Ba Đình - HN"⟩) ∧
      (syncLocationStep [⟨"L2", "Ba Đình - HN"⟩] "IA" "S" [] []
          ⟨"Ba Đình - HN", 80⟩).2.1 =
        [Mutation.activate "IA" "L2", Mutation.adjust "IA" "L2" 80] ∧
      (syncLocationStep [⟨"L2", "Ba Đình - HN"⟩] "IA" "S" [] []
          ⟨"Ba Đình - HN", 80⟩).1.wasActivated = some true :=
  have h := location_auto_activation [⟨"L2", "Ba Đình - HN"⟩] "IA" "S" [] []
    ⟨"Ba Đình - HN", 80⟩ ⟨"L2", "Ba Đình - HN"⟩ (by decide) (by decide)
    (by decide) (by decide)
  ⟨by decide, by decide, h.1, h.2.2.2.2.2.2⟩

/-- C5 counterexample: with target quantity 0 at an
activation-requiring location, the engine issues the activation but then
hits the unchanged-quantity branch: no adjustment is applied and the
outcome is the skipped one with no `was_activated` field, where the
claim promises a was_activated=true outcome with delta equal to the
target. -/
theorem location_auto_activation_zero_counterexample :
    (syncLocationStep [⟨"L2", "Ba Đình - HN"⟩] "IA" "S" [] []
        ⟨"Ba Đình - HN", 0⟩).2.1 = [Mutation.activate "IA" "L2"] ∧
      (syncLocationStep [⟨"L2", "Ba Đình - HN"⟩] "IA" "S" [] []
        ⟨"Ba Đình - HN", 0⟩).1.wasActivated = none ∧
      (syncLocationStep [⟨"L2", "Ba Đình - HN"⟩] "IA" "S" [] []
        ⟨"Ba Đình - HN", 0⟩).1.skipped = true := by
  refine ⟨by decide, by decide, by decide⟩

theorem syncLocations_length (shopLocations : List ShopLocation)
    (invItemId sku : String) (snapshot : List InvLevel)
    (locs : List LocationQuantity) (levels : List InvLevel) :
    (syncLocations shopLocations invItemId sku snapshot locs levels).1.length =
      locs.length := by
  induction locs generalizing levels with
  | nil => rfl
  | cons wloc rest ih =>
    simp only [syncLocations, List.length_cons]
    rw [ih]

/-- C7 (amended): when the SKU resolves to a variant and the shop is not
entirely location-less for it (it has at least one level or the shop at
least one location), reconcileItem returns exactly one outcome per entry
of item.locations; when no variant matches, it returns the single
skipped, unsuccessful outcome with location "all" and does no
per-location work (no mutations, platform untouched).  (When the variant
exists but both the level list and the location list are empty, a single
location-"all" outcome stands for the whole item instead.) -/
theorem reconcile_outcomes_per_location (w : World) (item : CanonicalItem) :
    (∀ v, w.variants.find? (fun x => x.sku == item.sku) = some v →
      ((levelsFor w.levels v.invItemId).isEmpty && w.shopLocations.isEmpty) = false →
      (syncProductInventory w item).1.length = item.locations.length) ∧
      (w.variants.find? (fun x => x.sku == item.sku) = none →
        (syncProductInventory w item).1 = [notFoundOutcome item.sku] ∧
          (syncProductInventory w item).2.1 = [] ∧
          (syncProductInventory w item).2.2 = w ∧
          (notFoundOutcome item.sku).success = false ∧
          (notFoundOutcome item.sku).skipped = true ∧
          (notFoundOutcome item.sku).location = "all") := by
  constructor
  · intro v hv hne
    unfold syncProductInventory
    rw [hv]
    simp only [hne, Bool.false_eq_true, if_false]
    exact syncLocations_length _ _ _ _ _ _
  · intro hnone
    unfold syncProductInventory
    rw [hnone]
    exact ⟨rfl, rfl, rfl, rfl, rfl, rfl⟩

/-- C2 counterexample: an unmatched SKU ("B") and an item ("A") whose
locations list names the same location twice make the second run
non-trivial even though no data changed in between: the stale level
snapshot taken before the location loop makes the duplicate entries
overshoot, so the second run issues two adjustment mutations, and the
unmatched SKU's second-run outcome has success false. -/
theorem sync_twice_counterexample :
    (runSync
        (runSync ⟨[⟨"A", "IA"⟩], [⟨"IA", "L1", "Narita - JP", 0⟩],
            [⟨"L1", "Narita - JP"⟩]⟩
          [⟨"B", "pb", [⟨"X", 5⟩]⟩,
            ⟨"A", "pa", [⟨"Narita - JP", 10⟩, ⟨"Narita - JP", 20⟩]⟩]).2.2
        [⟨"B", "pb", [⟨"X", 5⟩]⟩,
          ⟨"A", "pa", [⟨"Narita - JP", 10⟩, ⟨"Narita - JP", 20⟩]⟩]).2.1 =
      [Mutation.adjust "IA" "L1" (-20), Mutation.adjust "IA" "L1" (-10)] ∧
      ((runSync
          (runSync ⟨[⟨"A", "IA"⟩], [⟨"IA", "L1", "Narita - JP", 0⟩],
              [⟨"L1", "Narita - JP"⟩]⟩
            [⟨"B", "pb", [⟨"X", 5⟩]⟩,
              ⟨"A", "pa", [⟨"Narita - JP", 10⟩, ⟨"Narita - JP", 20⟩]⟩]).2.2
          [⟨"B", "pb", [⟨"X", 5⟩]⟩,
            ⟨"A", "pa", [⟨"Narita - JP", 10⟩, ⟨"Narita - JP", 20⟩]⟩]).1.map
        (fun o => o.success)) = [false, true, true] := by
  refine ⟨by decide, by decide⟩

/-- C7 counterexample: a resolving SKU whose variant has no inventory
level in a shop with no registered location produces one single outcome
for an item listing two warehouse locations — not one outcome per
location entry. -/
theorem reconcile_outcomes_per_location_counterexample :
    (syncProductInventory
        ⟨[⟨"S", "I"⟩], [], []⟩
        ⟨"S", "p", [⟨"a", 1⟩, ⟨"b", 2⟩]⟩).1.length = 1 ∧
      (⟨"S", "p", [⟨"a", 1⟩, ⟨"b", 2⟩]⟩ : CanonicalItem).locations.length = 2 := by
  refine ⟨by decide, by decide⟩

theorem applyAdjust_keys (L : List InvLevel) (inv lid : String) (δ : Int) :
    (applyAdjust L inv lid δ).map (fun l => (l.invItemId, l.locId)) =
      L.map (fun l => (l.invItemId, l.locId)) := by
  unfold applyAdjust
  rw [List.map_map]
  apply List.map_congr_left
  intro l _
  simp only [Function.comp_apply]
  split <;> rfl

theorem keyUnique_applyAdjust (L : List InvLevel) (inv lid : String) (δ : Int)
    (h : KeyUnique L) : KeyUnique (applyAdjust L inv lid δ) := by
  unfold KeyUnique
  rw [applyAdjust_keys]
  exact h

theorem namesConsistent_applyAdjust (L : List InvLevel)
    (sl : List ShopLocation) (inv lid : String) (δ : Int)
    (h : NamesConsistent L sl) :
    NamesConsistent (applyAdjust L inv lid δ) sl := by
  intro l' hl' s hs heq
  unfold applyAdjust at hl'
  rw [List.mem_map] at hl'
  obtain ⟨l, hl, hfl⟩ := hl'
  by_cases hc : (l.invItemId == inv && l.locId == lid) = true
  · rw [if_pos hc] at hfl
    rw [← hfl] at heq ⊢
    exact h l hl s hs heq
  · rw [if_neg hc] at hfl
    rw [← hfl] at heq ⊢
    exact h l hl s hs heq

theorem levelsFor_applyAdjust (L : List InvLevel) (inv0 inv lid : String)
    (δ : Int) :
    levelsFor (applyAdjust L inv lid δ) inv0 =
      applyAdjust (levelsFor L inv0) inv lid δ := by
  unfold levelsFor applyAdjust
  rw [List.filter_map]
  congr 1
  apply List.filter_congr
  intro x _
  simp only [Function.comp_apply]
  split <;> rfl

theorem findLevel_applyAdjust (M : List InvLevel) (inv lid : String)
    (δ : Int) (n : String) :
    findLevel (applyAdjust M inv lid δ) n =
      (findLevel M n).map (fun l =>
        if l.invItemId == inv && l.locId == lid then
          { l with available := l.available + δ } else l) := by
  unfold findLevel applyAdjust
  rw [@List.find?_map]
  have hp : ((fun l : InvLevel =>
        normalizeLocationName l.locName == normalizeLocationName n) ∘
      (fun l : InvLevel =>
        if l.invItemId == inv && l.locId == lid then
          { l with available := l.available + δ } else l)) =
      (fun l : InvLevel =>
        normalizeLocationName l.locName == normalizeLocationName n) := by
    funext l
    simp only [Function.comp_apply]
    split <;> rfl
  rw [hp]

theorem applyAdjust_id_of_nokey (M : List InvLevel) (inv lid : String)
    (δ : Int)
    (h : ∀ l ∈ M, (l.invItemId == inv && l.locId == lid) = false) :
    applyAdjust M inv lid δ = M := by
  unfold applyAdjust
  have e : ∀ l ∈ M, (if l.invItemId == inv && l.locId == lid then
      { l with available := l.available + δ } else l) = l := by
    intro l hl
    rw [h l hl]
    rfl
  calc M.map _ = M.map id := List.map_congr_left e
    _ = M := List.map_id M

theorem applyAdjust_append (L M : List InvLevel) (inv lid : String)
    (δ : Int) :
    applyAdjust (L ++ M) inv lid δ =
      applyAdjust L inv lid δ ++ applyAdjust M inv lid δ :=
  List.map_append _ L M

theorem applyAdjust_length (M : List InvLevel) (inv lid : String) (δ : Int) :
    (applyAdjust M inv lid δ).length = M.length :=
  List.length_map M _

theorem levelsFor_append (L M : List InvLevel) (inv : String) :
    levelsFor (L ++ M) inv = levelsFor L inv ++ levelsFor M inv :=
  List.filter_append L M

theorem keyUnique_levelsFor (L : List InvLevel) (inv : String)
    (h : KeyUnique L) : KeyUnique (levelsFor L inv) :=
  List.Nodup.sublist ((List.filter_sublist L).map _) h

theorem keyUnique_locId_ne (M : List InvLevel) (hKU : KeyUnique M)
    (a b : InvLevel) (ha : a ∈ M) (hb : b ∈ M) (hne : a ≠ b)
    (hinv : a.invItemId = b.invItemId) : a.locId ≠ b.locId := by
  intro hc
  apply hne
  apply List.inj_on_of_nodup_map hKU ha hb
  rw [Prod.mk.injEq]
  exact ⟨hinv, hc⟩

theorem find?_append_some {α : Type} (p : α → Bool) (l1 l2 : List α) (a : α)
    (h : l1.find? p = some a) : (l1 ++ l2).find? p = some a := by
  rw [List.find?_append, h]
  rfl

theorem find?_append_none {α : Type} (p : α → Bool) (l1 l2 : List α)
    (h : l1.find? p = none) : (l1 ++ l2).find? p = l2.find? p := by
  rw [List.find?_append, h]
  rfl

theorem findLevel_mem (M : List InvLevel) (n : String) (lvl : InvLevel)
    (h : findLevel M n = some lvl) :
    lvl ∈ M ∧ normalizeLocationName lvl.locName = normalizeLocationName n := by
  unfold findLevel at h
  have hp := List.find?_some h
  simp only [beq_iff_eq] at hp
  exact ⟨List.mem_of_find?_eq_some h, hp⟩

theorem findLevel_none (M : List InvLevel) (n : String)
    (h : findLevel M n = none) :
    ∀ l ∈ M, normalizeLocationName l.locName ≠ normalizeLocationName n := by
  intro l hl
  unfold findLevel at h
  rw [List.find?_eq_none] at h
  have := h l hl
  simpa using this

theorem mem_levelsFor (l : InvLevel) (L : List InvLevel) (inv : String) :
    l ∈ levelsFor L inv ↔ l ∈ L ∧ l.invItemId = inv := by
  unfold levelsFor
  rw [List.mem_filter]
  simp

theorem append_fresh_level_effect (sl : List ShopLocation) (inv : String)
    (L : List InvLevel) (s : ShopLocation) (q : Int) (nme : String)
    (hKU : KeyUnique L) (hNC : NamesConsistent L sl)
    (hSU : ShopLocationsUnique sl)
    (hsname : normalizeLocationName s.name = normalizeLocationName nme)
    (hnomatch : findLevel (levelsFor L inv) nme = none)
    (hnokey : ∀ l ∈ L, ¬(l.invItemId = inv ∧ l.locId = s.locId))
    (hsmem : s ∈ sl) :
    KeyUnique (L ++ [⟨inv, s.locId, s.name, q⟩]) ∧
      NamesConsistent (L ++ [⟨inv, s.locId, s.name, q⟩]) sl ∧
      (∀ n, normalizeLocationName n ≠ normalizeLocationName nme →
        findLevel (levelsFor (L ++ [⟨inv, s.locId, s.name, q⟩]) inv) n =
          findLevel (levelsFor L inv) n) ∧
      findLevel (levelsFor (L ++ [⟨inv, s.locId, s.name, q⟩]) inv) nme =
        some ⟨inv, s.locId, s.name, q⟩ ∧
      (∀ inv', inv' ≠ inv →
        levelsFor (L ++ [⟨inv, s.locId, s.name, q⟩]) inv' = levelsFor L inv') ∧
      (levelsFor L inv).length ≤
        (levelsFor (L ++ [⟨inv, s.locId, s.name, q⟩]) inv).length := by
  have hsingle : levelsFor [(⟨inv, s.locId, s.name, q⟩ : InvLevel)] inv =
      [⟨inv, s.locId, s.name, q⟩] := by
    unfold levelsFor
    simp
  have happ : levelsFor (L ++ [⟨inv, s.locId, s.name, q⟩]) inv =
      levelsFor L inv ++ [⟨inv, s.locId, s.name, q⟩] := by
    rw [levelsFor_append, hsingle]
  refine ⟨?_, ?_, ?_, ?_, ?_, ?_⟩
  · unfold KeyUnique
    rw [List.map_append, List.nodup_append]
    refine ⟨hKU, by simp, ?_⟩
    intro k hk hk2
    simp only [List.map_cons, List.map_nil, List.mem_singleton] at hk2
    subst hk2
    rw [List.mem_map] at hk
    obtain ⟨l, hl, hkey⟩ := hk
    rw [Prod.mk.injEq] at hkey
    exact hnokey l hl ⟨hkey.1, hkey.2⟩
  · intro l' hl' s'' hs'' heq
    rw [List.mem_append] at hl'
    cases hl' with
    | inl h => exact hNC l' h s'' hs'' heq
    | inr h =>
      rw [List.mem_singleton] at h
      subst h
      have : s = s'' := List.inj_on_of_nodup_map hSU hsmem hs'' heq
      rw [this]
  · intro n hn
    rw [happ]
    cases hfn : findLevel (levelsFor L inv) n with
    | some l0 =>
      unfold findLevel at hfn ⊢
      exact find?_append_some _ _ _ _ hfn
    | none =>
      unfold findLevel at hfn ⊢
      rw [find?_append_none _ _ _ hfn]
      rw [List.find?_eq_none]
      intro l hl
      rw [List.mem_singleton] at hl
      subst hl
      simp only [beq_iff_eq]
      intro hc
      exact hn (by rw [← hc, hsname])
  · rw [happ]
    unfold findLevel at hnomatch ⊢
    rw [find?_append_none _ _ _ hnomatch]
    simp [hsname]
  · intro inv' hinv'
    rw [levelsFor_append]
    have : levelsFor [(⟨inv, s.locId, s.name, q⟩ : InvLevel)] inv' = [] := by
      unfold levelsFor
      simp [Ne.symm hinv']
    rw [this, List.append_nil]
  · rw [happ, List.length_append]
    simp

theorem syncLocationStep_success_effect (sl : List ShopLocation)
    (inv sku : String) (snapshot L : List InvLevel) (wloc : LocationQuantity)
    (hKU : KeyUnique L) (hNC : NamesConsistent L sl)
    (hSU : ShopLocationsUnique sl)
    (hlink : findLevel (levelsFor L inv) wloc.location_name =
      findLevel snapshot wloc.location_name)
    (hsucc : (syncLocationStep sl inv sku snapshot L wloc).1.success = true) :
    KeyUnique (syncLocationStep sl inv sku snapshot L wloc).2.2 ∧
      NamesConsistent (syncLocationStep sl inv sku snapshot L wloc).2.2 sl ∧
      (∀ n, normalizeLocationName n ≠ normalizeLocationName wloc.location_name →
        findLevel (levelsFor (syncLocationStep sl inv sku snapshot L wloc).2.2 inv) n =
          findLevel (levelsFor L inv) n) ∧
      (∃ lvl, findLevel
          (levelsFor (syncLocationStep sl inv sku snapshot L wloc).2.2 inv)
          wloc.location_name = some lvl ∧ lvl.available = wloc.quantity) ∧
      (∀ inv', inv' ≠ inv →
        levelsFor (syncLocationStep sl inv sku snapshot L wloc).2.2 inv' =
          levelsFor L inv') ∧
      (levelsFor L inv).length ≤
        (levelsFor (syncLocationStep sl inv sku snapshot L wloc).2.2 inv).length := by
  cases hA : findLevel snapshot wloc.location_name with
  | some lvl =>
    have e : syncLocationStep sl inv sku snapshot L wloc =
        adjustPhase inv sku snapshot L wloc lvl := by
      unfold syncLocationStep
      rw [hA]
    have hlvl : findLevel (levelsFor L inv) wloc.location_name = some lvl := by
      rw [hlink, hA]
    obtain ⟨hlvlmem, hlvlname⟩ := findLevel_mem _ _ _ hlvl
    have hlvlL := (mem_levelsFor _ _ _).mp hlvlmem
    by_cases heq : lvl.available = wloc.quantity
    · have e2 : syncLocationStep sl inv sku snapshot L wloc =
          (skipOutcome sku lvl.locName wloc.quantity, [], L) := by
        rw [e]
        unfold adjustPhase
        rw [if_pos heq]
      rw [e2]
      exact ⟨hKU, hNC, fun n _ => rfl, ⟨lvl, hlvl, heq⟩, fun inv' _ => rfl,
        le_refl _⟩
    · have e2 : syncLocationStep sl inv sku snapshot L wloc =
          (updatedOutcome sku lvl.locName lvl.available wloc.quantity
              (wloc.quantity - lvl.available)
              (decide (lvl.available = 0) && (findLevel snapshot lvl.locName).isNone),
            [Mutation.adjust inv lvl.locId (wloc.quantity - lvl.available)],
            applyAdjust L inv lvl.locId (wloc.quantity - lvl.available)) := by
        rw [e]
        unfold adjustPhase
        rw [if_neg heq]
      rw [e2]
      refine ⟨keyUnique_applyAdjust L inv lvl.locId _ hKU,
        namesConsistent_applyAdjust L sl inv lvl.locId _ hNC, ?_, ?_, ?_, ?_⟩
      · intro n hn
        rw [levelsFor_applyAdjust, findLevel_applyAdjust]
        cases hfn : findLevel (levelsFor L inv) n with
        | none => rfl
        | some l0 =>
          obtain ⟨hl0mem, hl0name⟩ := findLevel_mem _ _ _ hfn
          have hne0 : l0 ≠ lvl := by
            intro hc
            apply hn
            rw [← hl0name, hc, hlvlname]
          have hinv0 := ((mem_levelsFor _ _ _).mp hl0mem).2
          have hlid : l0.locId ≠ lvl.locId :=
            keyUnique_locId_ne (levelsFor L inv)
              (keyUnique_levelsFor L inv hKU) l0 lvl hl0mem hlvlmem hne0
              (by rw [hinv0, hlvlL.2])
          simp [hlid]
      · refine ⟨{ lvl with available := lvl.available +
            (wloc.quantity - lvl.available) }, ?_,
          show lvl.available + (wloc.quantity - lvl.available) = wloc.quantity
            by omega⟩
        rw [levelsFor_applyAdjust, findLevel_applyAdjust, hlvl]
        have hcond : (lvl.invItemId == inv && lvl.locId == lvl.locId) = true := by
          simp [hlvlL.2]
        simp only [Option.map_some']
        rw [if_pos hcond]
      · intro inv' hinv'
        rw [levelsFor_applyAdjust]
        apply applyAdjust_id_of_nokey
        intro l hlm
        have hinv0 := ((mem_levelsFor _ _ _).mp hlm).2
        simp [hinv0, hinv']
      · rw [levelsFor_applyAdjust, applyAdjust_length]
  | none =>
    cases hS : findShopLocation sl wloc.location_name with
    | none =>
      have e : syncLocationStep sl inv sku snapshot L wloc =
          (unmatchedOutcome sku wloc.location_name, [], L) := by
        unfold syncLocationStep
        rw [hA, hS]
      rw [e] at hsucc
      exact absurd hsucc (by simp [unmatchedOutcome])
    | some s =>
      have hS' : List.find? (fun l => normalizeLocationName l.name ==
          normalizeLocationName wloc.location_name) sl = some s := by
        unfold findShopLocation at hS
        exact hS
      have hsmem : s ∈ sl := List.mem_of_find?_eq_some hS'
      have hsname : normalizeLocationName s.name =
          normalizeLocationName wloc.location_name := by
        have := List.find?_some hS'
        simpa using this
      have hnofind : findLevel (levelsFor L inv) wloc.location_name = none := by
        rw [hlink, hA]
      have hnomatch := findLevel_none _ _ hnofind
      have hnokey : ∀ l ∈ L, ¬(l.invItemId = inv ∧ l.locId = s.locId) := by
        intro l hl hc
        have hname : l.locName = s.name := hNC l hl s hsmem hc.2
        have hmem : l ∈ levelsFor L inv := (mem_levelsFor _ _ _).mpr ⟨hl, hc.1⟩
        exact hnomatch l hmem (by rw [hname, hsname])
      have hkey : L.find? (fun l =>
          l.invItemId == inv && l.locId == s.locId) = none := by
        rw [List.find?_eq_none]
        intro l hl
        simp only [Bool.and_eq_true, beq_iff_eq, not_and]
        intro h1 h2
        exact hnokey l hl ⟨h1, h2⟩
      have ea : applyActivate L inv s =
          (⟨inv, s.locId, s.name, (0 : Int)⟩,
            L ++ [⟨inv, s.locId, s.name, (0 : Int)⟩]) := by
        unfold applyActivate
        rw [hkey]
      by_cases hq : (0 : Int) = wloc.quantity
      · have e : syncLocationStep sl inv sku snapshot L wloc =
            (skipOutcome sku s.name wloc.quantity,
              [Mutation.activate inv s.locId],
              L ++ [⟨inv, s.locId, s.name, (0 : Int)⟩]) := by
          unfold syncLocationStep
          rw [hA, hS]
          simp only [ea]
          unfold adjustPhase
          rw [if_pos hq]
        rw [e]
        have heff := append_fresh_level_effect sl inv L s 0 wloc.location_name
          hKU hNC hSU hsname hnofind hnokey hsmem
        refine ⟨heff.1, heff.2.1, heff.2.2.1, ?_, heff.2.2.2.2.1, heff.2.2.2.2.2⟩
        exact ⟨⟨inv, s.locId, s.name, 0⟩, heff.2.2.2.1, hq⟩
      · have hadjL : applyAdjust (L ++ [⟨inv, s.locId, s.name, (0 : Int)⟩])
            inv s.locId (wloc.quantity - 0) =
            L ++ [⟨inv, s.locId, s.name, wloc.quantity⟩] := by
          rw [applyAdjust_append]
          have h1 : applyAdjust L inv s.locId (wloc.quantity - 0) = L := by
            apply applyAdjust_id_of_nokey
            intro l hl
            rw [Bool.and_eq_false_iff]
            by_cases hli : l.invItemId = inv
            · right
              simp only [beq_eq_false_iff_ne, ne_eq]
              intro hc
              exact hnokey l hl ⟨hli, hc⟩
            · left
              simp only [beq_eq_false_iff_ne, ne_eq]
              exact hli
          have h2 : applyAdjust [(⟨inv, s.locId, s.name, (0 : Int)⟩ : InvLevel)]
              inv s.locId (wloc.quantity - 0) =
              [⟨inv, s.locId, s.name, wloc.quantity⟩] := by
            unfold applyAdjust
            simp only [List.map_cons, List.map_nil]
            rw [if_pos (by simp)]
            simp only [List.cons.injEq, and_true]
            congr 1
            omega
          rw [h1, h2]
        have e : syncLocationStep sl inv sku snapshot L wloc =
            (updatedOutcome sku s.name 0 wloc.quantity (wloc.quantity - 0)
                (decide ((0 : Int) = 0) && (findLevel snapshot s.name).isNone),
              [Mutation.activate inv s.locId,
                Mutation.adjust inv s.locId (wloc.quantity - 0)],
              L ++ [⟨inv, s.locId, s.name, wloc.quantity⟩]) := by
          unfold syncLocationStep
          rw [hA, hS]
          simp only [ea]
          unfold adjustPhase
          rw [if_neg hq]
          rw [Prod.mk.injEq, Prod.mk.injEq]
          exact ⟨rfl, rfl, hadjL⟩
        rw [e]
        have heff := append_fresh_level_effect sl inv L s wloc.quantity
          wloc.location_name hKU hNC hSU hsname hnofind hnokey hsmem
        refine ⟨heff.1, heff.2.1, heff.2.2.1, ?_, heff.2.2.2.2.1, heff.2.2.2.2.2⟩
        exact ⟨⟨inv, s.locId, s.name, wloc.quantity⟩, heff.2.2.2.1, rfl⟩

theorem syncLocations_success_effect (sl : List ShopLocation)
    (inv sku : String) (snapshot : List InvLevel) :
    ∀ (locs : List LocationQuantity) (L : List InvLevel),
      KeyUnique L → NamesConsistent L sl → ShopLocationsUnique sl →
      (∀ wloc ∈ locs, findLevel (levelsFor L inv) wloc.location_name =
        findLevel snapshot wloc.location_name) →
      DistinctNormalizedNames locs →
      (∀ o ∈ (syncLocations sl inv sku snapshot locs L).1, o.success = true) →
      KeyUnique (syncLocations sl inv sku snapshot locs L).2.2 ∧
        NamesConsistent (syncLocations sl inv sku snapshot locs L).2.2 sl ∧
        (∀ n, normalizeLocationName n ∉
            locs.map (fun x => normalizeLocationName x.location_name) →
          findLevel (levelsFor (syncLocations sl inv sku snapshot locs L).2.2 inv) n =
            findLevel (levelsFor L inv) n) ∧
        (∀ wloc ∈ locs, ∃ lvl,
          findLevel (levelsFor (syncLocations sl inv sku snapshot locs L).2.2 inv)
              wloc.location_name = some lvl ∧ lvl.available = wloc.quantity) ∧
        (∀ inv', inv' ≠ inv →
          levelsFor (syncLocations sl inv sku snapshot locs L).2.2 inv' =
            levelsFor L inv') ∧
        (levelsFor L inv).length ≤
          (levelsFor (syncLocations sl inv sku snapshot locs L).2.2 inv).length := by
  intro locs
  induction locs with
  | nil =>
    intro L hKU hNC hSU hlink hnodup hsucc
    exact ⟨hKU, hNC, fun n _ => rfl, by simp, fun inv' _ => rfl, le_refl _⟩
  | cons wloc rest ih =>
    intro L hKU hNC hSU hlink hnodup hsucc
    have hout : (syncLocations sl inv sku snapshot (wloc :: rest) L).1 =
        (syncLocationStep sl inv sku snapshot L wloc).1 ::
          (syncLocations sl inv sku snapshot rest
            (syncLocationStep sl inv sku snapshot L wloc).2.2).1 := rfl
    have hlev : (syncLocations sl inv sku snapshot (wloc :: rest) L).2.2 =
        (syncLocations sl inv sku snapshot rest
          (syncLocationStep sl inv sku snapshot L wloc).2.2).2.2 := rfl
    have hsucc_head : (syncLocationStep sl inv sku snapshot L wloc).1.success = true := by
      apply hsucc
      rw [hout]
      exact List.mem_cons_self _ _
    have hsucc_rest : ∀ o ∈ (syncLocations sl inv sku snapshot rest
        (syncLocationStep sl inv sku snapshot L wloc).2.2).1, o.success = true := by
      intro o ho
      apply hsucc
      rw [hout]
      exact List.mem_cons_of_mem _ ho
    obtain ⟨S1, S2, S3, ⟨lvl, S4a, S4b⟩, S5, S6⟩ :=
      syncLocationStep_success_effect sl inv sku snapshot L wloc hKU hNC hSU
        (hlink wloc (List.mem_cons_self _ _)) hsucc_head
    have hnodup' : (rest.map
        (fun x => normalizeLocationName x.location_name)).Nodup ∧
        normalizeLocationName wloc.location_name ∉
          rest.map (fun x => normalizeLocationName x.location_name) := by
      unfold DistinctNormalizedNames at hnodup
      rw [List.map_cons, List.nodup_cons] at hnodup
      exact ⟨hnodup.2, hnodup.1⟩
    have hlink' : ∀ wloc' ∈ rest,
        findLevel (levelsFor (syncLocationStep sl inv sku snapshot L wloc).2.2 inv)
            wloc'.location_name = findLevel snapshot wloc'.location_name := by
      intro wloc' hw'
      have hne : normalizeLocationName wloc'.location_name ≠
          normalizeLocationName wloc.location_name := by
        intro hc
        apply hnodup'.2
        rw [List.mem_map]
        exact ⟨wloc', hw', hc⟩
      rw [S3 wloc'.location_name hne]
      exact hlink wloc' (List.mem_cons_of_mem _ hw')
    obtain ⟨C1, C2, C3, C4, C5, C6⟩ := ih
      (syncLocationStep sl inv sku snapshot L wloc).2.2 S1 S2 hSU hlink'
      hnodup'.1 hsucc_rest
    rw [hlev]
    refine ⟨C1, C2, ?_, ?_, ?_, ?_⟩
    · intro n hn
      rw [List.map_cons] at hn
      have hn1 : normalizeLocationName n ≠
          normalizeLocationName wloc.location_name := by
        intro hc
        exact hn (by rw [hc]; exact List.mem_cons_self _ _)
      have hn2 : normalizeLocationName n ∉
          rest.map (fun x => normalizeLocationName x.location_name) := by
        intro hc
        exact hn (List.mem_cons_of_mem _ hc)
      rw [C3 n hn2, S3 n hn1]
    · intro wloc' hw'
      rw [List.mem_cons] at hw'
      cases hw' with
      | inl h =>
        subst h
        refine ⟨lvl, ?_, S4b⟩
        rw [C3 wloc'.location_name hnodup'.2]
        exact S4a
      | inr h => exact C4 wloc' h
    · intro inv' hinv'
      rw [C5 inv' hinv', S5 inv' hinv']
    · exact le_trans S6 C6

theorem syncProductInventory_success_effect (w : World) (item : CanonicalItem)
    (hWF : WorldWF w) (hnodup : DistinctNormalizedNames item.locations)
    (hsucc : ∀ o ∈ (syncProductInventory w item).1, o.success = true) :
    (syncProductInventory w item).2.2.variants = w.variants ∧
      (syncProductInventory w item).2.2.shopLocations = w.shopLocations ∧
      WorldWF (syncProductInventory w item).2.2 ∧
      ItemConverged (syncProductInventory w item).2.2 item ∧
      GuardOpen (syncProductInventory w item).2.2 item ∧
      (∀ inv', (∀ v, w.variants.find? (fun x => x.sku == item.sku) = some v →
          inv' ≠ v.invItemId) →
        levelsFor (syncProductInventory w item).2.2.levels inv' =
          levelsFor w.levels inv') := by
  obtain ⟨hKU, hNC, hSU, hVU⟩ := hWF
  have isEmpty_false_iff : ∀ (l : List InvLevel),
      l.isEmpty = false ↔ 0 < l.length := by
    intro l
    cases l <;> simp
  rcases hv : w.variants.find? (fun x => x.sku == item.sku) with _ | v
  · have e : syncProductInventory w item = ([notFoundOutcome item.sku], [], w) := by
      unfold syncProductInventory
      rw [hv]
    rw [e] at hsucc
    have := hsucc (notFoundOutcome item.sku) (List.mem_cons_self _ _)
    simp [notFoundOutcome] at this
  · have estep : syncProductInventory w item =
        (if ((levelsFor w.levels v.invItemId).isEmpty &&
            w.shopLocations.isEmpty) = true
          then ([noLocationsOutcome item.sku], [], w)
          else ((syncLocations w.shopLocations v.invItemId item.sku
              (levelsFor w.levels v.invItemId) item.locations w.levels).1,
            (syncLocations w.shopLocations v.invItemId item.sku
              (levelsFor w.levels v.invItemId) item.locations w.levels).2.1,
            { w with levels := (syncLocations w.shopLocations v.invItemId item.sku
              (levelsFor w.levels v.invItemId) item.locations w.levels).2.2 })) := by
      unfold syncProductInventory
      rw [hv]
    by_cases hg : ((levelsFor w.levels v.invItemId).isEmpty &&
        w.shopLocations.isEmpty) = true
    · rw [estep, if_pos hg] at hsucc
      have := hsucc (noLocationsOutcome item.sku) (List.mem_cons_self _ _)
      simp [noLocationsOutcome] at this
    · have hg' : ((levelsFor w.levels v.invItemId).isEmpty &&
          w.shopLocations.isEmpty) = false := by
        rw [Bool.not_eq_true] at hg
        exact hg
      rw [estep, if_neg hg] at hsucc ⊢
      obtain ⟨C1, C2, C3, C4, C5, C6⟩ :=
        syncLocations_success_effect w.shopLocations v.invItemId item.sku
          (levelsFor w.levels v.invItemId) item.locations w.levels
          hKU hNC hSU (fun _ _ => rfl) hnodup hsucc
      refine ⟨rfl, rfl, ⟨C1, C2, hSU, hVU⟩, ?_, ?_, ?_⟩
      · exact ⟨v, hv, C4⟩
      · intro v' hv'
        have hv'' : w.variants.find? (fun x => x.sku == item.sku) = some v' := hv'
        rw [hv] at hv''
        have hvv : v' = v := (Option.some.inj hv'').symm
        subst hvv
        show ((levelsFor (syncLocations w.shopLocations v'.invItemId item.sku
            (levelsFor w.levels v'.invItemId) item.locations w.levels).2.2
              v'.invItemId).isEmpty && w.shopLocations.isEmpty) = false
        rw [Bool.and_eq_false_iff] at hg' ⊢
        cases hg' with
        | inl h =>
          left
          rw [isEmpty_false_iff] at h ⊢
          omega
        | inr h =>
          right
          exact h
      · intro inv' hinv'
        exact C5 inv' (hinv' v hv)

theorem variant_invItemId_ne (w : World) (hVU : VariantsUnique w.variants)
    (item item' : CanonicalItem) (v v' : Variant)
    (hv : w.variants.find? (fun x => x.sku == item.sku) = some v)
    (hv' : w.variants.find? (fun x => x.sku == item'.sku) = some v')
    (hsku : item.sku ≠ item'.sku) : v.invItemId ≠ v'.invItemId := by
  have hvm := List.mem_of_find?_eq_some hv
  have hvm' := List.mem_of_find?_eq_some hv'
  have hvs : v.sku = item.sku := by
    have := List.find?_some hv
    simpa using this
  have hvs' : v'.sku = item'.sku := by
    have := List.find?_some hv'
    simpa using this
  intro hc
  have : v = v' := List.inj_on_of_nodup_map hVU hvm hvm' hc
  apply hsku
  rw [← hvs, this, hvs']

theorem runSync_success_effect :
    ∀ (items : List CanonicalItem) (w : World),
      WorldWF w → DistinctSkus items →
      (∀ item ∈ items, DistinctNormalizedNames item.locations) →
      (∀ o ∈ (runSync w items).1, o.success = true) →
      (runSync w items).2.2.variants = w.variants ∧
        (runSync w items).2.2.shopLocations = w.shopLocations ∧
        WorldWF (runSync w items).2.2 ∧
        (∀ item ∈ items, ItemConverged (runSync w items).2.2 item ∧
          GuardOpen (runSync w items).2.2 item) ∧
        (∀ inv', (∀ item ∈ items, ∀ v,
            w.variants.find? (fun x => x.sku == item.sku) = some v →
              inv' ≠ v.invItemId) →
          levelsFor (runSync w items).2.2.levels inv' =
            levelsFor w.levels inv') := by
  intro items
  induction items with
  | nil =>
    intro w hWF _ _ _
    exact ⟨rfl, rfl, hWF, by simp, fun _ _ => rfl⟩
  | cons item rest ih =>
    intro w hWF hsku hnames hsucc
    have hout : (runSync w (item :: rest)).1 =
        (syncProductInventory w item).1 ++
          (runSync (syncProductInventory w item).2.2 rest).1 := rfl
    have hlev : (runSync w (item :: rest)).2.2 =
        (runSync (syncProductInventory w item).2.2 rest).2.2 := rfl
    have hsucc_head : ∀ o ∈ (syncProductInventory w item).1, o.success = true := by
      intro o ho
      apply hsucc
      rw [hout]
      exact List.mem_append_left _ ho
    have hsucc_rest : ∀ o ∈ (runSync (syncProductInventory w item).2.2 rest).1,
        o.success = true := by
      intro o ho
      apply hsucc
      rw [hout]
      exact List.mem_append_right _ ho
    obtain ⟨hvar1, hsl1, hWF1, hconv1, hguard1, hframe1⟩ :=
      syncProductInventory_success_effect w item hWF
        (hnames item (List.mem_cons_self _ _)) hsucc_head
    have hsku' : DistinctSkus rest ∧ item.sku ∉ rest.map (fun it => it.sku) := by
      unfold DistinctSkus at hsku
      rw [List.map_cons, List.nodup_cons] at hsku
      exact ⟨hsku.2, hsku.1⟩
    obtain ⟨Rvar, Rsl, RWF, Rconv, Rframe⟩ :=
      ih (syncProductInventory w item).2.2 hWF1 hsku'.1
        (fun it hit => hnames it (List.mem_cons_of_mem _ hit)) hsucc_rest
    rw [hlev]
    obtain ⟨hWF1a, hWF1b, hWF1c, hWF1d⟩ := hWF1
    refine ⟨by rw [Rvar, hvar1], by rw [Rsl, hsl1], RWF, ?_, ?_⟩
    · intro it hit
      rw [List.mem_cons] at hit
      cases hit with
      | inr h => exact Rconv it h
      | inl h =>
        subst h
        obtain ⟨v, hv1, hlocs1⟩ := hconv1
        have hframeR : levelsFor (runSync (syncProductInventory w it).2.2 rest).2.2.levels
            v.invItemId = levelsFor (syncProductInventory w it).2.2.levels v.invItemId := by
          apply Rframe
          intro it' hit' v' hv'
          have hv1w : w.variants.find? (fun x => x.sku == it.sku) = some v := by
            rw [← hvar1]
            exact hv1
          have hv'w : w.variants.find? (fun x => x.sku == it'.sku) = some v' := by
            rw [← hvar1]
            exact hv'
          have hskune : it.sku ≠ it'.sku := by
            intro hc
            apply hsku'.2
            rw [List.mem_map]
            exact ⟨it', hit', hc.symm⟩
          exact variant_invItemId_ne w hWF.2.2.2 it it' v v' hv1w hv'w hskune
        constructor
        · refine ⟨v, ?_, ?_⟩
          · rw [Rvar]
            exact hv1
          · intro wloc hw
            rw [hframeR]
            exact hlocs1 wloc hw
        · intro v' hv'
          have hv'1 : (syncProductInventory w it).2.2.variants.find?
              (fun x => x.sku == it.sku) = some v' := by
            rw [← Rvar]
            exact hv'
          have := hguard1 v' hv'1
          have hvv : v' = v := by
            rw [hv1] at hv'1
            exact (Option.some.inj hv'1).symm
          subst hvv
          rw [Rsl]
          rw [hframeR]
          exact this
    · intro inv' hinv'
      have h1 : levelsFor (syncProductInventory w item).2.2.levels inv' =
          levelsFor w.levels inv' := by
        apply hframe1
        intro v hv
        exact hinv' item (List.mem_cons_self _ _) v hv
      have h2 : levelsFor (runSync (syncProductInventory w item).2.2 rest).2.2.levels
          inv' = levelsFor (syncProductInventory w item).2.2.levels inv' := by
        apply Rframe
        intro it hit v hv
        apply hinv' it (List.mem_cons_of_mem _ hit) v
        rw [← hvar1]
        exact hv
      rw [h2, h1]

theorem adjustPhase_skip_eq (inv sku : String) (snapshot levels : List InvLevel)
    (wloc : LocationQuantity) (lvl : InvLevel)
    (heq : lvl.available = wloc.quantity) :
    adjustPhase inv sku snapshot levels wloc lvl =
      (skipOutcome sku lvl.locName wloc.quantity, [], levels) := by
  unfold adjustPhase
  rw [if_pos heq]

theorem syncLocations_converged_noop (sl : List ShopLocation)
    (inv sku : String) (snapshot : List InvLevel) :
    ∀ (locs : List LocationQuantity) (L : List InvLevel),
      (∀ wloc ∈ locs, ∃ lvl,
        findLevel snapshot wloc.location_name = some lvl ∧
          lvl.available = wloc.quantity) →
      (syncLocations sl inv sku snapshot locs L).2.1 = [] ∧
        (syncLocations sl inv sku snapshot locs L).2.2 = L ∧
        ∀ o ∈ (syncLocations sl inv sku snapshot locs L).1,
          o.skipped = true ∧ o.success = true := by
  intro locs
  induction locs with
  | nil =>
    intro L _
    exact ⟨rfl, rfl, fun o ho => absurd ho (List.not_mem_nil o)⟩
  | cons wloc rest ih =>
    intro L hconv
    obtain ⟨lvl, hfl, hq⟩ := hconv wloc (List.mem_cons_self _ _)
    have estep : syncLocationStep sl inv sku snapshot L wloc =
        (skipOutcome sku lvl.locName wloc.quantity, [], L) := by
      unfold syncLocationStep
      rw [hfl]
      exact adjustPhase_skip_eq inv sku snapshot L wloc lvl hq
    obtain ⟨ih1, ih2, ih3⟩ := ih L
      (fun wloc' hw' => hconv wloc' (List.mem_cons_of_mem _ hw'))
    have hout : (syncLocations sl inv sku snapshot (wloc :: rest) L).1 =
        (syncLocationStep sl inv sku snapshot L wloc).1 ::
          (syncLocations sl inv sku snapshot rest
            (syncLocationStep sl inv sku snapshot L wloc).2.2).1 := rfl
    have hmut : (syncLocations sl inv sku snapshot (wloc :: rest) L).2.1 =
        (syncLocationStep sl inv sku snapshot L wloc).2.1 ++
          (syncLocations sl inv sku snapshot rest
            (syncLocationStep sl inv sku snapshot L wloc).2.2).2.1 := rfl
    have hlev : (syncLocations sl inv sku snapshot (wloc :: rest) L).2.2 =
        (syncLocations sl inv sku snapshot rest
          (syncLocationStep sl inv sku snapshot L wloc).2.2).2.2 := rfl
    refine ⟨?_, ?_, ?_⟩
    · rw [hmut, estep]
      show [] ++ (syncLocations sl inv sku snapshot rest L).2.1 = []
      rw [List.nil_append]
      exact ih1
    · rw [hlev, estep]
      exact ih2
    · intro o ho
      rw [hout, estep] at ho
      rw [List.mem_cons] at ho
      cases ho with
      | inl h =>
        subst h
        exact ⟨rfl, rfl⟩
      | inr h =>
        exact ih3 o h

theorem syncProductInventory_converged_noop (w : World) (item : CanonicalItem)
    (hconv : ItemConverged w item) (hguard : GuardOpen w item) :
    (syncProductInventory w item).2.1 = [] ∧
      (syncProductInventory w item).2.2 = w ∧
      ∀ o ∈ (syncProductInventory w item).1,
        o.skipped = true ∧ o.success = true := by
  obtain ⟨v, hv, hlocs⟩ := hconv
  have hg := hguard v hv
  have estep0 : syncProductInventory w item =
      (if ((levelsFor w.levels v.invItemId).isEmpty &&
          w.shopLocations.isEmpty) = true
        then ([noLocationsOutcome item.sku], [], w)
        else ((syncLocations w.shopLocations v.invItemId item.sku
            (levelsFor w.levels v.invItemId) item.locations w.levels).1,
          (syncLocations w.shopLocations v.invItemId item.sku
            (levelsFor w.levels v.invItemId) item.locations w.levels).2.1,
          { w with levels := (syncLocations w.shopLocations v.invItemId item.sku
            (levelsFor w.levels v.invItemId) item.locations w.levels).2.2 })) := by
    unfold syncProductInventory
    rw [hv]
  have estep : syncProductInventory w item =
      ((syncLocations w.shopLocations v.invItemId item.sku
          (levelsFor w.levels v.invItemId) item.locations w.levels).1,
        (syncLocations w.shopLocations v.invItemId item.sku
          (levelsFor w.levels v.invItemId) item.locations w.levels).2.1,
        { w with levels := (syncLocations w.shopLocations v.invItemId item.sku
          (levelsFor w.levels v.invItemId) item.locations w.levels).2.2 }) := by
    rw [estep0]
    rw [if_neg (by rw [hg]; exact Bool.false_ne_true)]
  obtain ⟨h1, h2, h3⟩ := syncLocations_converged_noop w.shopLocations
    v.invItemId item.sku (levelsFor w.levels v.invItemId) item.locations
    w.levels hlocs
  rw [estep]
  refine ⟨h1, ?_, h3⟩
  rw [h2]

theorem runSync_converged_noop :
    ∀ (items : List CanonicalItem) (w : World),
      (∀ item ∈ items, ItemConverged w item ∧ GuardOpen w item) →
      (runSync w items).2.1 = [] ∧ (runSync w items).2.2 = w ∧
        ∀ o ∈ (runSync w items).1, o.skipped = true ∧ o.success = true := by
  intro items
  induction items with
  | nil =>
    intro w _
    exact ⟨rfl, rfl, fun o ho => absurd ho (List.not_mem_nil o)⟩
  | cons item rest ih =>
    intro w hconv
    obtain ⟨h1, h2, h3⟩ := syncProductInventory_converged_noop w item
      (hconv item (List.mem_cons_self _ _)).1
      (hconv item (List.mem_cons_self _ _)).2
    obtain ⟨ih1, ih2, ih3⟩ := ih w
      (fun it hit => hconv it (List.mem_cons_of_mem _ hit))
    have hmut : (runSync w (item :: rest)).2.1 =
        (syncProductInventory w item).2.1 ++
          (runSync (syncProductInventory w item).2.2 rest).2.1 := rfl
    have hlev : (runSync w (item :: rest)).2.2 =
        (runSync (syncProductInventory w item).2.2 rest).2.2 := rfl
    have hout : (runSync w (item :: rest)).1 =
        (syncProductInventory w item).1 ++
          (runSync (syncProductInventory w item).2.2 rest).1 := rfl
    refine ⟨?_, ?_, ?_⟩
    · rw [hmut, h1, h2, ih1]
      rfl
    · rw [hlev, h2]
      exact ih2
    · intro o ho
      rw [hout] at ho
      rw [List.mem_append] at ho
      cases ho with
      | inl h => exact h3 o h
      | inr h =>
        apply ih3
        rw [← h2]
        exact h

/-- C2 (amended): if every outcome of the first reconciliation run
succeeded, each item's locations list has pairwise-distinct normalized
names, items have pairwise-distinct SKUs, and the commerce state is
well-formed (distinct level keys consistent with the shop location
list, distinct shop location ids, distinct variant inventory-item ids),
then running the full reconciliation a second time on the resulting
state — with no intervening change — issues zero inventory mutation
calls, and every outcome of the second run has skipped=true and
success=true. -/
theorem sync_twice_idempotent (w : World) (items : List CanonicalItem)
    (hWF : WorldWF w) (hsku : DistinctSkus items)
    (hnames : ∀ item ∈ items, DistinctNormalizedNames item.locations)
    (hsucc : ∀ o ∈ (runSync w items).1, o.success = true) :
    (runSync (runSync w items).2.2 items).2.1 = [] ∧
      ∀ o ∈ (runSync (runSync w items).2.2 items).1,
        o.skipped = true ∧ o.success = true := by
  obtain ⟨_, _, _, hconv, _⟩ :=
    runSync_success_effect items w hWF hsku hnames hsucc
  obtain ⟨h1, _, h3⟩ := runSync_converged_noop items (runSync w items).2.2 hconv
  exact ⟨h1, h3⟩

/-- Witness for the amended C2 at the end-to-end scenario: one SKU with
an existing level at 90 (target 100) and an activation target 80; the
first run succeeds everywhere, and the second run is mutation-free with
all outcomes skipped and successful. -/
theorem sync_twice_idempotent_witness :
    (∀ o ∈ (runSync
        ⟨[⟨"A", "IA"⟩], [⟨"IA", "L1", "Narita - JP", 90⟩],
          [⟨"L1", "Narita - JP"⟩, ⟨"L2", "Ba Đình - HN"⟩]⟩
        [⟨"A", "p", [⟨"Narita - JP", 100⟩, ⟨"Ba Đình - HN", 80⟩]⟩]).1,
      o.success = true) ∧
      (runSync
        (runSync
          ⟨[⟨"A", "IA"⟩], [⟨"IA", "L1", "Narita - JP", 90⟩],
            [⟨"L1", "Narita - JP"⟩, ⟨"L2", "Ba Đình - HN"⟩]⟩
          [⟨"A", "p", [⟨"Narita - JP", 100⟩, ⟨"Ba Đình - HN", 80⟩]⟩]).2.2
        [⟨"A", "p", [⟨"Narita - JP", 100⟩, ⟨"Ba Đình - HN", 80⟩]⟩]).2.1 = [] ∧
      ∀ o ∈ (runSync
        (runSync
          ⟨[⟨"A", "IA"⟩], [⟨"IA", "L1", "Narita - JP", 90⟩],
            [⟨"L1", "Narita - JP"⟩, ⟨"L2", "Ba Đình - HN"⟩]⟩
          [⟨"A", "p", [⟨"Narita - JP", 100⟩, ⟨"Ba Đình - HN", 80⟩]⟩]).2.2
        [⟨"A", "p", [⟨"Narita - JP", 100⟩, ⟨"Ba Đình - HN", 80⟩]⟩]).1,
        o.skipped = true ∧ o.success = true :=
  have h := sync_twice_idempotent
    ⟨[⟨"A", "IA"⟩], [⟨"IA", "L1", "Narita - JP", 90⟩],
      [⟨"L1", "Narita - JP"⟩, ⟨"L2", "Ba Đình - HN"⟩]⟩
    [⟨"A", "p", [⟨"Narita - JP", 100⟩, ⟨"Ba Đình - HN", 80⟩]⟩]
    (by decide) (by decide) (by decide) (by decide)
  ⟨by decide, h.1, h.2⟩

end InventorySync

end SkincareSync
